import Mathlib

/-!
Verification of the WhatsApp agent's core subsystem: intent classification,
entity extraction, routing, the multi-step order-creation wizard, and the
rejection classifier.

The Python source is embedded shallowly:

* Python strings become `List Char` (`Str`); `str.lower`, `str.strip`,
  `str.split`, and the `in` substring test are modelled by executable
  functions below, with ASCII semantics (the source only manipulates
  ASCII keywords and labels).
* The `re` regular-expression patterns of `utils/message_parser.py` are
  transcribed into a small syntax tree (`RE`) and interpreted by a
  backtracking matcher whose preference order (alternation tries the left
  branch first, repetition is greedy) and scanning discipline
  (leftmost, non-overlapping) follow CPython's `re.findall`.
* `datetime` values become integer epoch seconds; `timedelta.days` is
  floored division by 86400, as in CPython.
* `uuid.uuid4()` is modelled by a supply of identifier strings threaded
  through the agent state; validity of the textual form (36 characters,
  lowercase hexadecimal with hyphens at positions 8, 13, 18 and 23) is a
  hypothesis where the order-id format is at stake.
* The sqlite-backed `DatabaseService` becomes a pure state (`DbState`)
  with the same observable behaviour (`INSERT` on a taken primary key
  fails, `INSERT OR REPLACE` overwrites, row defaults apply); handlers
  that may receive exceptions from the store are additionally
  parametrised by an abstract store (`Db σ`) whose operations may raise,
  which models the error-containment contract of the router.
-/

namespace WA

/-- Python strings are modelled as lists of characters. -/
abbrev Str := List Char

/-- Coerce a Lean string literal to the model type. -/
def str (s : String) : Str := s.data

/-- Python `str.lower()` (ASCII). -/
def pyLower (s : Str) : Str := s.map Char.toLower

/-- Python whitespace for `str.strip()` (the source only ever strips
spaces, tabs and newlines). -/
def isSpaceCh (c : Char) : Bool := c = ' ' || c = '\t' || c = '\n' || c = '\r'

/-- Python `str.strip()`. -/
def pyStrip (s : Str) : Str :=
  ((s.dropWhile isSpaceCh).reverse.dropWhile isSpaceCh).reverse

/-- Python `needle in hay` (contiguous substring test). -/
def hasSub (hay needle : Str) : Bool :=
  needle.isPrefixOf hay ||
    match hay with
    | [] => false
    | _ :: t => hasSub t needle

/-- Python `s.split(c)` for a single separator character. -/
def splitOnCh (c : Char) : Str → List Str
  | [] => [[]]
  | x :: xs =>
    let r := splitOnCh c xs
    if x = c then [] :: r
    else
      match r with
      | h :: t => (x :: h) :: t
      | [] => [[x]]

/-- Python `s.split(sep)` for a multi-character separator (used by the
cancellation handler for `"reason:"`). -/
def pySplitSub (sep : Str) : Str → List Str
  | [] => [[]]
  | x :: xs =>
    if sep.isEmpty then [x :: xs]
    else if sep.isPrefixOf (x :: xs) then
      [] :: pySplitSub sep (List.drop (sep.length - 1) xs)
    else
      match pySplitSub sep xs with
      | h :: t => (x :: h) :: t
      | [] => [[x]]
  termination_by s => s.length
  decreasing_by all_goals simp [List.length_drop] <;> omega

/-- Character of a decimal digit. -/
def digitVal (c : Char) : Nat := c.toNat - 48

/-- Python `int(s)` on a string of decimal digits; raises on anything else
(the source only ever converts digit runs produced by `\d+` or the literal
default `'1'`). -/
def pyIntDigits (s : Str) : Option Nat :=
  if s ≠ [] && s.all Char.isDigit then
    some (s.foldl (fun acc c => 10 * acc + digitVal c) 0)
  else none

/-! ### Regular expressions

Syntax tree for the patterns appearing in `utils/message_parser.py`, and a
backtracking interpreter with CPython `re` semantics: alternation prefers
the left branch, `*`/`+`/`?`/`{m,n}` are greedy, `\b` is a word-boundary
assertion, and all patterns are compiled with `re.IGNORECASE` (literal
characters compare case-insensitively). -/

/-- Regex syntax: ε, a character class, concatenation, ordered alternation,
greedy Kleene star, a numbered capturing group, and the `\b` assertion. -/
inductive RE : Type where
  | eps : RE
  | cls (p : Char → Bool) : RE
  | seq (a b : RE) : RE
  | alt (a b : RE) : RE
  | star (a : RE) : RE
  | grp (i : Nat) (a : RE) : RE
  | wb : RE

/-- Case-insensitive literal character (every source pattern is compiled
with `re.IGNORECASE`). -/
def chC (c : Char) : RE := .cls (fun x => x.toLower = c.toLower)

/-- Literal word, e.g. `lit "order"`. -/
def lit (s : String) : RE := s.data.foldr (fun c r => .seq (chC c) r) .eps

/-- Ordered alternation over a list (first alternative preferred, as in
CPython). -/
def altL : List RE → RE
  | [] => .eps
  | [r] => r
  | r :: rs => .alt r (altL rs)

/-- `r?` (greedy). -/
def opt (r : RE) : RE := .alt r .eps

/-- `r+` (greedy). -/
def plus (r : RE) : RE := .seq r (.star r)

/-- `r{0,n}` (greedy). -/
def optN : Nat → RE → RE
  | 0, _ => .eps
  | n + 1, r => .alt (.seq r (optN n r)) .eps

/-- `r{lo,hi}` (greedy). -/
def repRange (lo hi : Nat) (r : RE) : RE :=
  (List.range lo).foldr (fun _ acc => .seq r acc) (optN (hi - lo) r)

/-- `\d`. -/
def dCls : RE := .cls Char.isDigit

/-- `\w` (word character). -/
def isWordCh (c : Char) : Bool := c.isAlphanum || c = '_'

/-- `\s`. -/
def sCls : RE := .cls isSpaceCh

/-- `.` (any character but a newline; the source never sets `re.DOTALL`). -/
def dotCls : RE := .cls (fun c => c ≠ '\n')

/-- Word-ness of the character on one side of a position (`none` = outside
the string, which counts as non-word). -/
def isWordO : Option Char → Bool
  | none => false
  | some c => isWordCh c

/-- One backtracking outcome: the character immediately before the rest of
the input (for later `\b` assertions), the unconsumed suffix, and the
captures recorded so far. -/
abbrev MOut := Option Char × Str × List (Nat × Str)

/-- All outcomes of matching `r` at the start of `s`, in CPython's
backtracking preference order; `prev` is the character before `s`.  `fuel`
bounds the recursion; `reFuel` below always suffices because every starred
subexpression of the source patterns consumes at least one character per
iteration (the interpreter also enforces that progress, as CPython does for
repeated empty matches). -/
def mtch : Nat → RE → Option Char → Str → List MOut
  | 0, _, _, _ => []
  | _ + 1, .eps, prev, s => [(prev, s, [])]
  | _ + 1, .cls p, prev, s =>
    match s with
    | [] => []
    | c :: rest => if p c then [(some c, rest, [])] else (fun _ => []) prev
  | fuel + 1, .seq a b, prev, s =>
    (mtch fuel a prev s).flatMap fun (p1, r1, c1) =>
      (mtch fuel b p1 r1).map fun (p2, r2, c2) => (p2, r2, c1 ++ c2)
  | fuel + 1, .alt a b, prev, s => mtch fuel a prev s ++ mtch fuel b prev s
  | fuel + 1, .star a, prev, s =>
    ((mtch fuel a prev s).flatMap fun (p1, r1, c1) =>
      if r1.length < s.length then
        (mtch fuel (.star a) p1 r1).map fun (p2, r2, c2) => (p2, r2, c1 ++ c2)
      else []) ++ [(prev, s, [])]
  | fuel + 1, .grp i a, prev, s =>
    (mtch fuel a prev s).map fun (p1, r1, c1) =>
      (p1, r1, c1 ++ [(i, s.take (s.length - r1.length))])
  | _ + 1, .wb, prev, s =>
    if isWordO prev != isWordO s.head? then [(prev, s, [])] else []

/-- Structural size of a pattern, for the fuel bound. -/
def sizeRE : RE → Nat
  | .eps => 1
  | .cls _ => 1
  | .seq a b => sizeRE a + sizeRE b + 1
  | .alt a b => sizeRE a + sizeRE b + 1
  | .star a => sizeRE a + 1
  | .grp _ a => sizeRE a + 1
  | .wb => 1

/-- Fuel that is ample for matching `r` against `s` (recursion depth is at
most the pattern size per consumed character). -/
def reFuel (r : RE) (s : Str) : Nat := (sizeRE r + 1) * (s.length + 1)

/-- One match found while scanning: the matched substring and the captures. -/
structure Found where
  whole : Str
  caps : List (Nat × Str)
deriving Repr

/-- Scan `s` left to right, as `re.findall` does: at each position take the
backtracker's preferred match; on success continue after it (every source
pattern matches at least one character), on failure advance one character. -/
def findAllAux (r : RE) : Nat → Option Char → Str → List Found
  | 0, _, _ => []
  | scanFuel + 1, prev, s =>
    match (mtch (reFuel r s) r prev s).head? with
    | some (p1, r1, caps) =>
      if r1.length < s.length then
        ⟨s.take (s.length - r1.length), caps⟩ ::
          findAllAux r scanFuel p1 r1
      else
        -- zero-width match: advance one character (unreachable for the
        -- source patterns, which never match the empty string)
        match s with
        | [] => [⟨[], caps⟩]
        | c :: rest => ⟨[], caps⟩ :: findAllAux r scanFuel (some c) rest
    | none =>
      match s with
      | [] => []
      | c :: rest => findAllAux r scanFuel (some c) rest

/-- `re.findall(r, s)`, as the list of raw matches with captures. -/
def findAll (r : RE) (s : Str) : List Found :=
  findAllAux r (s.length + 1) none s

/-- Number of capturing groups of a pattern (none of the source patterns
nest groups). -/
def numGroups : RE → Nat
  | .eps => 0
  | .cls _ => 0
  | .seq a b => numGroups a + numGroups b
  | .alt a b => numGroups a + numGroups b
  | .star a => numGroups a
  | .grp _ a => numGroups a + 1
  | .wb => 0

/-- Whether a pattern contains no capturing group (such a pattern records
no captures). -/
def grpFree : RE → Bool
  | .eps => true
  | .cls _ => true
  | .seq a b => grpFree a && grpFree b
  | .alt a b => grpFree a && grpFree b
  | .star a => grpFree a
  | .grp _ _ => false
  | .wb => true


/-- The result element type of `re.findall`: the whole match when the
pattern has no group, the single group when it has one, a tuple of groups
otherwise (an unmatched optional group yields the empty string). -/
inductive PyMatch : Type where
  | s (v : Str) : PyMatch
  | tup (vs : List Str) : PyMatch
deriving Repr, DecidableEq

/-- Value of capture group `i` in a match (`''` when the group did not
participate, as in `re.findall`). -/
def capGet (f : Found) (i : Nat) : Str :=
  match f.caps.lookup i with
  | some v => v
  | none => []

/-- `re.findall(r, s)` with CPython's result shapes. -/
def pyFindall (r : RE) (s : Str) : List PyMatch :=
  match numGroups r with
  | 0 => (findAll r s).map fun f => .s f.whole
  | 1 => (findAll r s).map fun f => .s (capGet f 1)
  | _ => (findAll r s).map fun f =>
      .tup ((List.range (numGroups r)).map fun i => capGet f (i + 1))

/-! ### `utils/message_parser.py` -/

/-- Concatenation of a pattern list. -/
def cat (rs : List RE) : RE := rs.foldr .seq .eps

/-- `[-\s]`. -/
def dashSp : RE := .cls (fun c => c = '-' || isSpaceCh c)

/-- The `Intent` enumeration. -/
inductive Intent : Type where
  | orderCreate | orderStatus | orderCancel
  | faqGeneral | faqHours | faqContact
  | rejectResponse | help | greeting | unknown
deriving Repr, DecidableEq

/-- `MessageParser.intent_patterns`, in declaration order.  Each regex is
transcribed literally; `.*` is `star dotCls`, `(...)` is a capture group. -/
def intentPatterns : List (Intent × List RE) :=
  [ (.orderCreate,
      [ cat [.wb, .grp 1 (altL [lit "order", lit "buy", lit "purchase",
          lit "want", lit "need"]), .wb],
        cat [.wb, .grp 1 (altL
          [ cat [lit "create", .star dotCls, lit "order"],
            cat [lit "new", .star dotCls, lit "order"],
            cat [lit "place", .star dotCls, lit "order"] ]), .wb],
        cat [.wb, .grp 1 (altL [lit "i want", lit "i need",
          lit "looking for"]), .wb] ]),
    (.orderStatus,
      [ cat [.wb, .grp 1 (altL
          [ lit "status", lit "track",
            cat [lit "where", .star dotCls, lit "order"],
            cat [lit "order", .star dotCls, lit "status"] ]), .wb],
        cat [.wb, .grp 1 (altL
          [ cat [lit "check", .star dotCls, lit "order"],
            cat [lit "find", .star dotCls, lit "order"] ]), .wb],
        cat [.wb, lit "ord", .star dashSp, plus dCls, .wb] ]),
    (.orderCancel,
      [ cat [.wb, .grp 1 (altL [lit "cancel", lit "delete", lit "remove"]),
          .star dotCls, lit "order", .wb],
        cat [.wb, .grp 1 (altL [lit "cancel", lit "stop"]), .wb] ]),
    (.faqHours,
      [ cat [.wb, .grp 1 (altL [lit "hours", lit "time", lit "open",
          lit "close", lit "when"]), .wb],
        cat [.wb, .grp 1 (altL
          [ cat [lit "working", .star dotCls, lit "hours"],
            cat [lit "business", .star dotCls, lit "hours"] ]), .wb] ]),
    (.faqContact,
      [ cat [.wb, .grp 1 (altL [lit "contact", lit "phone", lit "email",
          lit "address"]), .wb],
        cat [.wb, .grp 1 (altL [lit "reach", lit "call", lit "write"]),
          .wb] ]),
    (.help,
      [ cat [.wb, .grp 1 (altL [lit "help", lit "assist", lit "support"]),
          .wb],
        cat [.wb, .grp 1 (altL
          [ cat [lit "what", .star dotCls, lit "can"],
            cat [lit "how", .star dotCls, lit "work"] ]), .wb] ]),
    (.greeting,
      [ cat [.wb, .grp 1 (altL [lit "hello", lit "hi", lit "hey",
          lit "good morning", lit "good afternoon"]), .wb],
        cat [.wb, .grp 1 (altL [lit "greetings", lit "welcome"]), .wb] ]),
    (.rejectResponse,
      [ cat [.wb, .grp 1 (altL [lit "no", lit "not", lit "reject",
          lit "decline", lit "refuse"]), .wb],
        cat [.wb, .grp 1 (altL [lit "don\x27t want", lit "not interested"]),
          .wb] ]) ]

/-- `r'\b(ord|order)[-\s]*(\d+)\b'`. -/
def orderIdRE : RE :=
  cat [.wb, .grp 1 (altL [lit "ord", lit "order"]), .star dashSp,
    .grp 2 (plus dCls), .wb]

/-- `r'\+?[\d\s\-\(\)]{10,15}'`. -/
def phoneRE : RE :=
  .seq (opt (chC '+'))
    (repRange 10 15 (.cls fun c => c.isDigit || isSpaceCh c || c = '-' ||
      c = '(' || c = ')'))

/-- `r'\b[A-Za-z0-9._%+-]+@[A-Za-z0-9.-]+\.[A-Z|a-z]{2,}\b'`. -/
def emailRE : RE :=
  cat [.wb,
    plus (.cls fun c => c.isAlphanum || c = '.' || c = '_' || c = '%' ||
      c = '+' || c = '-'),
    chC '@',
    plus (.cls fun c => c.isAlphanum || c = '.' || c = '-'),
    chC '.',
    (let tld : RE := .cls fun c => c.isAlpha || c = '|'
     .seq tld (plus tld)),
    .wb]

/-- `r'\b(\d+)\s*(piece|pieces|item|items)?\b'`. -/
def quantityRE : RE :=
  cat [.wb, .grp 1 (plus dCls), .star sCls,
    opt (.grp 2 (altL [lit "piece", lit "pieces", lit "item", lit "items"])),
    .wb]

/-- `r'\b(laptop|phone|computer|tablet|monitor|keyboard|mouse)\w*\b'`. -/
def productRE : RE :=
  cat [.wb, .grp 1 (altL [lit "laptop", lit "phone", lit "computer",
    lit "tablet", lit "monitor", lit "keyboard", lit "mouse"]),
    .star (.cls isWordCh), .wb]

/-- `MessageParser.entity_patterns`, in declaration order. -/
def entityPatterns : List (String × RE) :=
  [ ("order_id", orderIdRE), ("phone_number", phoneRE), ("email", emailRE),
    ("quantity", quantityRE), ("product", productRE) ]

/-- Total regex-match count of one intent's pattern set
(`score += len(re.findall(pattern, message))`). -/
def intentScore (message : Str) (pats : List RE) : Nat :=
  pats.foldl (fun sc r => sc + (findAll r message).length) 0

/-- `MessageParser._detect_intent`.  The dict of positive scores becomes a
list in declaration order; Python's `max(d, key=d.get)` keeps the first
element and replaces it only on a strictly greater score. -/
def detectIntent (message : Str) : Intent × ℚ :=
  let intentScores := intentPatterns.filterMap fun p =>
    let score := intentScore message p.2
    if score > 0 then some (p.1, score) else none
  match intentScores with
  | [] => (.unknown, 0)
  | x :: xs =>
    let best := xs.foldl (fun b y => if y.2 > b.2 then y else b) x
    (best.1, min ((best.2 : ℚ) * (3 / 10)) 1)

/-- One iteration of `MessageParser._extract_entities`: append the entity
type when it has at least one match; `order_id` keeps the second capture
(`match[1]`), every other type keeps the whole match or the first capture
(`match[0]`). -/
def entityStep (message : Str) (acc : List (String × List Str))
    (p : String × RE) : List (String × List Str) :=
  let ms := pyFindall p.2 message
  if ms.isEmpty then acc
  else if p.1 = "order_id" then
    acc ++ [(p.1, ms.map fun m =>
      match m with
      | .tup vs => vs.getD 1 []
      | .s v => v)]
  else
    acc ++ [(p.1, ms.map fun m =>
      match m with
      | .s v => v
      | .tup vs => vs.getD 0 [])]

/-- `MessageParser._extract_entities`: entity types with at least one
match, in declaration order. -/
def extractEntities (message : Str) : List (String × List Str) :=
  entityPatterns.foldl (entityStep message) []

/-- `MessageParser.parse_message`'s result record. -/
structure ParsedMessage where
  originalMessage : Str
  intent : Intent
  confidence : ℚ
  entities : List (String × List Str)
  messageLength : Nat
  wordCount : Nat
deriving Repr

/-- Python `str.split()` with no argument (for `word_count`): split on
whitespace runs, dropping empties. -/
def pyWords (s : Str) : List Str :=
  ((splitOnCh ' ' (s.map fun c => if isSpaceCh c then ' ' else c)).filter
    (· ≠ []))

/-- `MessageParser.parse_message`. -/
def parseMessage (message : Str) : ParsedMessage :=
  let messageLower := pyStrip (pyLower message)
  let r := detectIntent messageLower
  { originalMessage := message
    intent := r.1
    confidence := r.2
    entities := extractEntities message
    messageLength := message.length
    wordCount := (pyWords message).length }

/-- Dictionary lookup with default (`dict.get(k, dflt)`). -/
def dGet (d : List (String × Str)) (k : String) (dflt : Str) : Str :=
  match d.lookup k with
  | some v => v
  | none => dflt

/-- Dictionary update `d[k] = v`: overwrite in place when the key exists
(keeping its first-insertion position, as a Python dict does), append
otherwise. -/
def dUpd {κ β : Type} [DecidableEq κ] : List (κ × β) → κ → β → List (κ × β)
  | [], k, v => [(k, v)]
  | p :: t, k, v => if p.1 = k then (k, v) :: t else p :: dUpd t k v

/-- Dictionary update `d[k] = v` on a string-valued record. -/
def dSet (d : List (String × Str)) (k : String) (v : Str) :
    List (String × Str) :=
  dUpd d k v

/-- `re.search(r'\d+', line)`: first maximal digit run. -/
def searchDigits (line : Str) : Option Str :=
  (findAll (plus dCls) line).head?.map (·.whole)

/-- `MessageParser.extract_order_details`. -/
def extractOrderDetails (message : Str) : List (String × Str) :=
  let lines := splitOnCh '\n' (pyStrip message)
  let init : List (String × Str) :=
    [ ("product", []), ("quantity", str "1"), ("customer_name", []),
      ("customer_phone", []), ("address", []), ("notes", []) ]
  let step := fun (od : List (String × Str)) (line : Str) =>
    let lineLower := pyLower (pyStrip line)
    if hasSub lineLower (str "name:") then
      dSet od "customer_name" (pyStrip ((splitOnCh ':' line).getD 1 []))
    else if hasSub lineLower (str "phone:") then
      dSet od "customer_phone" (pyStrip ((splitOnCh ':' line).getD 1 []))
    else if hasSub lineLower (str "address:") then
      dSet od "address" (pyStrip ((splitOnCh ':' line).getD 1 []))
    else if hasSub lineLower (str "quantity:") || hasSub lineLower (str "qty:")
    then
      match searchDigits line with
      | some q => dSet od "quantity" q
      | none => od
    else if [str "want", str "order", str "buy", str "need"].any
        (hasSub lineLower) then
      dSet od "product" (pyStrip line)
    else if pyStrip line ≠ [] &&
        !([str "name:", str "phone:", str "address:", str "quantity:"].any
          (hasSub lineLower)) then
      dSet od "notes" (dGet od "notes" [] ++ pyStrip line ++ [' '])
    else od
  let d := lines.foldl step init
  dSet d "notes" (pyStrip (dGet d "notes" []))

/-- `MessageParser.extract_order_id`. -/
def extractOrderId (message : Str) : Option Str :=
  match (extractEntities message).lookup "order_id" with
  | some (v :: _) => some v
  | _ => none

/-! ### `agents/reject_agent.py` -/

/-- The `RejectionType` values returned by `RejectAgent._analyze_rejection`. -/
inductive RejectionType : Type where
  | notInterested | tooExpensive | wrongTiming | needToThink | generalNo
deriving Repr, DecidableEq

/-- `RejectAgent._analyze_rejection`: ordered `any(phrase in message_lower)`
checks. -/
def analyzeRejection (message : Str) : RejectionType :=
  let messageLower := pyLower message
  if [str "not interested", str "don\x27t want", str "not looking"].any
      (hasSub messageLower) then .notInterested
  else if [str "too expensive", str "too much", str "can\x27t afford",
      str "cost", str "price"].any (hasSub messageLower) then .tooExpensive
  else if [str "not now", str "bad timing", str "busy", str "later"].any
      (hasSub messageLower) then .wrongTiming
  else if [str "think about", str "consider", str "decide", str "maybe"].any
      (hasSub messageLower) then .needToThink
  else .generalNo

/-! ### `services/database_service.py`

The sqlite store becomes a pure state: the `customers` and `orders` tables
are association lists keyed by their primary keys, `CURRENT_TIMESTAMP` is
an integer epoch-second argument, and a JSON detail value is a string or a
boolean (`DVal`).  `INSERT` on a taken key raises, which the service
catches and converts to `False`; `INSERT OR REPLACE` overwrites. -/

/-- A JSON value stored in a detail bag or metadata column. -/
inductive DVal : Type where
  | s (v : Str) : DVal
  | b (v : Bool) : DVal
deriving Repr, DecidableEq

/-- Row of the `customers` table (`name`/`email` are nullable). -/
structure Customer where
  phoneNumber : Str
  name : Option Str
  email : Option Str
  createdAt : Int
  updatedAt : Int
  metadata : List (String × Str)
deriving Repr, DecidableEq

/-- Row of the `orders` table (`status` defaults to `'pending'`). -/
structure OrderRecord where
  orderId : Str
  customerPhone : Str
  product : Str
  quantity : Int
  status : Str
  details : List (String × DVal)
  createdAt : Int
  updatedAt : Int
deriving Repr, DecidableEq

/-- The two tables of the store. -/
structure DbState where
  customers : List (Str × Customer)
  orders : List (Str × OrderRecord)
deriving Repr, DecidableEq

/-- `dict.update` / JSON merge: overwrite existing keys, append new ones. -/
def dMerge (old new : List (String × DVal)) : List (String × DVal) :=
  new.foldl (fun acc p => dUpd acc p.1 p.2) old

/-- Association-list upsert keyed on the first component. -/
def aUpsert {β : Type} (l : List (Str × β)) (k : Str) (v : β) :
    List (Str × β) :=
  dUpd l k v

/-- `DatabaseService.create_customer` (`INSERT OR REPLACE`, always `True`). -/
def dbCreateCustomer (db : DbState) (now : Int) (phoneNumber : Str)
    (name email : Option Str) (metadata : List (String × Str)) :
    DbState × Bool :=
  let row : Customer :=
    { phoneNumber := phoneNumber, name := name, email := email,
      createdAt := now, updatedAt := now, metadata := metadata }
  ({ db with customers := aUpsert db.customers phoneNumber row }, true)

/-- `DatabaseService.get_customer`. -/
def dbGetCustomer (db : DbState) (phoneNumber : Str) : Option Customer :=
  db.customers.lookup phoneNumber

/-- `DatabaseService.create_order`: ensure the customer row exists (with a
`NULL` name), then `INSERT`; a duplicate `order_id` violates the primary
key, which the service catches and reports as `False`. -/
def dbCreateOrder (db : DbState) (now : Int) (orderId customerPhone : Str)
    (product : Str) (quantity : Int) (details : List (String × DVal)) :
    DbState × Bool :=
  let db1 :=
    if (dbGetCustomer db customerPhone).isNone then
      (dbCreateCustomer db now customerPhone none none []).1
    else db
  if db1.orders.any (·.1 = orderId) then (db1, false)
  else
    let row : OrderRecord :=
      { orderId := orderId, customerPhone := customerPhone,
        product := product, quantity := quantity, status := str "pending",
        details := details, createdAt := now, updatedAt := now }
    ({ db1 with orders := db1.orders ++ [(orderId, row)] }, true)

/-- `DatabaseService.get_order`. -/
def dbGetOrder (db : DbState) (orderId : Str) : Option OrderRecord :=
  db.orders.lookup orderId

/-- `DatabaseService.get_customer_orders` (`ORDER BY created_at DESC`). -/
def dbGetCustomerOrders (db : DbState) (customerPhone : Str) :
    List OrderRecord :=
  ((db.orders.map Prod.snd).filter (·.customerPhone = customerPhone)
    ).mergeSort (fun a b => a.createdAt ≥ b.createdAt)

/-- `DatabaseService.update_order_status`. -/
def dbUpdateOrderStatus (db : DbState) (now : Int) (orderId status : Str)
    (details : List (String × DVal)) : DbState × Bool :=
  match dbGetOrder db orderId with
  | none => (db, false)
  | some cur =>
    let row : OrderRecord :=
      { cur with
          status := status
          details := dMerge cur.details details
          updatedAt := now }
    ({ db with orders := aUpsert db.orders orderId row }, true)

/-- Integer rendered as a string (stands in for
`datetime.now().isoformat()` in the cancellation audit fields). -/
def showInt (n : Int) : Str := (toString n).data

/-- Python `a or b` on an optional string (`None` and `''` are falsy). -/
def pyOrStr (a : Option Str) (b : Str) : Str :=
  match a with
  | some v => if v = [] then b else v
  | none => b

/-- `DatabaseService.cancel_order`.  `time_diff.days` is floored division
of the elapsed seconds by 86400, as for a CPython `timedelta`. -/
def dbCancelOrder (db : DbState) (now : Int) (orderId : Str)
    (reason : Option Str) : DbState × (Bool × Str) :=
  match dbGetOrder db orderId with
  | none => (db, (false, str "Order not found"))
  | some order =>
    if order.status = str "delivered" || order.status = str "cancelled" then
      (db, (false, str "Cannot cancel order with status: " ++ order.status))
    else
      let timeDiffDays := (now - order.createdAt).fdiv 86400
      if timeDiffDays ≥ 1 then
        (db, (false, str "Order cannot be cancelled after 24 hours"))
      else
        let cancelDetails := dMerge order.details
          [ ("cancellation_reason",
              .s (pyOrStr reason (str "Customer request"))),
            ("cancelled_at", .s (showInt now)) ]
        let r := dbUpdateOrderStatus db now orderId (str "cancelled")
          cancelDetails
        (r.1, (r.2, if r.2 then str "Order cancelled successfully"
          else str "Error cancelling order"))

/-! ### The abstract store seen by the agents

The handlers receive the database service by injection.  For the
error-containment claims the store is abstract: each operation transforms
an opaque store state `σ` and may raise (`Except.error`), exactly the
failure mode a handler must contain.  `PyExn` is an opaque raised
exception. -/

/-- An exception value raised by a collaborator. -/
structure PyExn where
  unit : Unit
deriving Repr, DecidableEq

/-- The store interface consumed by the agents, with effectful, possibly
raising operations over an opaque state. -/
structure Db (σ : Type) where
  getCustomer : Str → σ → σ × Except PyExn (Option Customer)
  createCustomer : Str → Str → List (String × Str) → σ →
    σ × Except PyExn Bool
  createOrder : Str → Str → Str → Int → List (String × DVal) → σ →
    σ × Except PyExn Bool
  getOrder : Str → σ → σ × Except PyExn (Option OrderRecord)
  getCustomerOrders : Str → σ → σ × Except PyExn (List OrderRecord)
  cancelOrder : Str → Str → σ → σ × Except PyExn (Bool × Str)

/-- Store state of the concrete service: the tables plus the wall clock. -/
structure DbSt where
  db : DbState
  now : Int
deriving Repr, DecidableEq

/-- The concrete `DatabaseService` as a store: pure and never raising
(every method catches its own exceptions). -/
def concreteDb : Db DbSt where
  getCustomer phone s := (s, .ok (dbGetCustomer s.db phone))
  createCustomer phone name metadata s :=
    let r := dbCreateCustomer s.db s.now phone (some name) none metadata
    ({ s with db := r.1 }, .ok r.2)
  createOrder orderId phone product quantity details s :=
    let r := dbCreateOrder s.db s.now orderId phone product quantity details
    ({ s with db := r.1 }, .ok r.2)
  getOrder orderId s := (s, .ok (dbGetOrder s.db orderId))
  getCustomerOrders phone s := (s, .ok (dbGetCustomerOrders s.db phone))
  cancelOrder orderId reason s :=
    let r := dbCancelOrder s.db s.now orderId (some reason)
    ({ s with db := r.1 }, .ok r.2)

/-! ### `agents/order_agent.py`

The order agent's per-sender wizard state.  The source stores the step as
one of the strings `'product' | 'name' | 'phone' | 'address'`; these are
the only values ever assigned, transcribed here as an enumeration. -/

/-- Wizard step tags (`order_data['step']`). -/
inductive Step : Type where
  | product | name | phone | address
deriving Repr, DecidableEq

/-- One `pending_orders` entry: `{'step': ..., 'data': {...},
'started_at': ...}`. -/
structure PendingOrder where
  step : Step
  data : List (String × Str)
  startedAt : Int
deriving Repr, DecidableEq

/-- Bot configuration (`config.BOT_NAME`, `config.BUSINESS_HOURS`). -/
structure Config where
  botName : Str
  businessHours : Str

/-- Mutable state seen by the agents: the wizard map, the injected store
state, the `uuid.uuid4()` supply, and the wall clock (epoch seconds plus
the `weekday()`/`hour` views used by the FAQ agent). -/
structure AgentSt (σ : Type) where
  pending : Str → Option PendingOrder
  dbs : σ
  uuids : List Str
  now : Int
  weekday : Nat
  hour : Nat

/-- Outcome of a handler body: the updated state and either a response or
a raised exception. -/
abbrev HRes (σ : Type) := AgentSt σ × Except PyExn Str

/-- `self.pending_orders[sender] = v`. -/
def pendingSet (p : Str → Option PendingOrder) (sender : Str)
    (v : PendingOrder) : Str → Option PendingOrder :=
  fun x => if x = sender then some v else p x

/-- `del self.pending_orders[sender]`. -/
def pendingDel (p : Str → Option PendingOrder) (sender : Str) :
    Str → Option PendingOrder :=
  fun x => if x = sender then none else p x

/-- Draw the next `str(uuid.uuid4())` from the supply. -/
def popUuid (st : AgentSt σ) : Str × AgentSt σ :=
  match st.uuids with
  | [] => ([], st)
  | u :: rest => (u, { st with uuids := rest })

/-- `f"ORD-{str(uuid.uuid4())[:8].upper()}"` — both creation paths build
their order id this way. -/
def mkOrderId (u : Str) : Str :=
  str "ORD-" ++ (u.take 8).map Char.toUpper

/-- Python `s.replace(pat, rep)`. -/
def pyReplace (s pat rep : Str) : Str :=
  List.intercalate rep (pySplitSub pat s)

/-- Python `str.title()` (used for the status line). -/
def pyTitle : Str → Str := go true
where
  go : Bool → Str → Str
    | _, [] => []
    | cap, c :: t =>
      if c.isAlpha then
        (if cap then c.toUpper else c.toLower) :: go false t
      else c :: go true t

/-- `OrderAgent._is_complete_order`: at least 3 of the 4 field words
present (bare or followed by `:`). -/
def isCompleteOrder (message : Str) : Bool :=
  let messageLower := pyLower message
  let foundFields :=
    ([str "product", str "name", str "phone", str "address"].countP
      fun f => hasSub messageLower f || hasSub messageLower (f ++ str ":"))
  foundFields ≥ 3

/-! Response literals of `agents/order_agent.py` (apostrophes written
`\x27`). -/

/-- Step-1 prompt returned by `_start_guided_order_creation`. -/
def txtStep1 : Str := str "📦 **Let\x27s create your order!**\n\nI\x27ll help you step by step.\n\n**Step 1: What would you like to order?**\nPlease tell me the product/service you want.\n\n*Examples:*\n• 2 laptops\n• 1 smartphone\n• Office chair\n• Custom software development\n\nWhat would you like to order? 🛍️"

/-- Step-2 prompt (product recorded). -/
def txtStep2 : Str := str "✅ **Product recorded!**\n\n**Step 2: Your name**\nPlease provide your full name for the order.\n\n*Example:* John Doe"

/-- Step-3 prompt (name recorded). -/
def txtStep3 : Str := str "✅ **Name recorded!**\n\n**Step 3: Contact number**\nPlease provide your phone number.\n\n*Example:* +1-555-0123"

/-- Step-4 prompt (phone recorded). -/
def txtStep4 : Str := str "✅ **Phone recorded!**\n\n**Step 4: Delivery address**\nPlease provide your complete delivery address.\n\n*Example:* 123 Main St, Apt 4B, New York, NY 10001"

/-- Restart message of the wizard's `except` clause. -/
def txtContinueErr : Str := str "❌ Sorry, there was an error. Let\x27s start over. Type *order* to begin again."

/-- Store-refused-creation message. -/
def txtCreateFail : Str := str "❌ Sorry, there was an error creating your order. Please try again."

/-- `OrderAgent.handle_message`'s `except` response. -/
def txtOrderAgentErr : Str := str "❌ Sorry, I encountered an error processing your order request. Please try again."

/-- `_create_order_from_message`'s `except` response. -/
def txtSingleShotErr : Str := str "❌ Sorry, I couldn\x27t process your order. Please check the format and try again."

/-- `OrderAgent._get_order_confirmation`. -/
def orderConfirmation (orderId : Str) (orderDetails : List (String × Str)) :
    Str :=
  str "✅ **Order Created Successfully!**\n\n**Order ID:** " ++ orderId ++
  str "\n**Product:** " ++ dGet orderDetails "product" (str "N/A") ++
  str "\n**Customer:** " ++ dGet orderDetails "customer_name" (str "N/A") ++
  str "\n**Phone:** " ++ dGet orderDetails "customer_phone" (str "N/A") ++
  str "\n**Address:** " ++ dGet orderDetails "address" (str "N/A") ++
  str "\n\n**Status:** Processing\n**Estimated Delivery:** 2-3 business days\n\n📱 You\x27ll receive updates via WhatsApp\n📧 Confirmation email will be sent if provided\n\n**Need help?**\n• Type *status " ++
  pyReplace orderId (str "ORD-") [] ++
  str "* to check status\n• Type *contact* for support\n\nThank you for your order! 🎉"

/-- `OrderAgent._start_guided_order_creation`. -/
def startGuidedOrderCreation (_message sender : Str) (st : AgentSt σ) :
    HRes σ :=
  let entry : PendingOrder := ⟨.product, [], st.now⟩
  ({ st with pending := pendingSet st.pending sender entry }, .ok txtStep1)

/-- `OrderAgent._continue_order_creation`.  The body sits in a
`try/except`; the only raise sites are the `order_data['data']['product']`
access and the store call, and the `except` clause deletes the session and
returns the restart message.  A missing session would be a `KeyError`
*outside* the `try` (propagated), which the call site's membership check
makes unreachable. -/
def continueOrderCreation (db : Db σ) (message sender : Str)
    (st : AgentSt σ) : HRes σ :=
  match st.pending sender with
  | none => (st, .error ⟨()⟩)
  | some orderData =>
    match orderData.step with
    | .product =>
      let entry : PendingOrder :=
        ⟨.name, dSet orderData.data "product" (pyStrip message),
          orderData.startedAt⟩
      ({ st with pending := pendingSet st.pending sender entry },
       .ok txtStep2)
    | .name =>
      let entry : PendingOrder :=
        ⟨.phone, dSet orderData.data "customer_name" (pyStrip message),
          orderData.startedAt⟩
      ({ st with pending := pendingSet st.pending sender entry },
       .ok txtStep3)
    | .phone =>
      let entry : PendingOrder :=
        ⟨.address, dSet orderData.data "customer_phone" (pyStrip message),
          orderData.startedAt⟩
      ({ st with pending := pendingSet st.pending sender entry },
       .ok txtStep4)
    | .address =>
      let data1 := dSet orderData.data "address" (pyStrip message)
      let entry : PendingOrder := ⟨.address, data1, orderData.startedAt⟩
      let st1 := { st with pending := pendingSet st.pending sender entry }
      let r := popUuid st1
      let orderId := mkOrderId r.1
      let st2 := r.2
      match data1.lookup "product" with
      | none =>
        -- KeyError on the product field, caught by the except clause
        ({ st2 with pending := pendingDel st2.pending sender },
         .ok txtContinueErr)
      | some product =>
        let bag := data1.map (fun p => (p.1, DVal.s p.2)) ++
          [("created_via", .s (str "whatsapp_guided")),
           ("agent_processed", .b true)]
        match db.createOrder orderId sender product 1 bag st2.dbs with
        | (dbs1, .error _) =>
          ({ st2 with dbs := dbs1, pending := pendingDel st2.pending sender },
           .ok txtContinueErr)
        | (dbs1, .ok success) =>
          ({ st2 with dbs := dbs1, pending := pendingDel st2.pending sender },
           .ok (if success then orderConfirmation orderId data1
            else txtCreateFail))

/-- `OrderAgent._create_order_from_message` (single-shot path; its own
`try/except` converts any raise into the check-format message). -/
def createOrderFromMessage (db : Db σ) (message sender : Str)
    (st : AgentSt σ) : HRes σ :=
  let orderDetails := extractOrderDetails message
  let r := popUuid st
  let orderId := mkOrderId r.1
  let st1 := r.2
  match db.getCustomer sender st1.dbs with
  | (dbs1, .error _) => ({ st1 with dbs := dbs1 }, .ok txtSingleShotErr)
  | (dbs1, .ok customer) =>
    let afterCustomer :=
      if customer.isNone then
        db.createCustomer sender (dGet orderDetails "customer_name"
          (str "Unknown")) [("source", str "whatsapp_order")] dbs1
      else (dbs1, .ok true)
    match afterCustomer with
    | (dbs2, .error _) => ({ st1 with dbs := dbs2 }, .ok txtSingleShotErr)
    | (dbs2, .ok _) =>
      match pyIntDigits (dGet orderDetails "quantity" (str "1")) with
      | none => ({ st1 with dbs := dbs2 }, .ok txtSingleShotErr)
      | some quantity =>
        let bag : List (String × DVal) :=
          [ ("customer_name", .s (dGet orderDetails "customer_name" [])),
            ("customer_phone", .s (dGet orderDetails "customer_phone" sender)),
            ("address", .s (dGet orderDetails "address" [])),
            ("notes", .s (dGet orderDetails "notes" [])),
            ("created_via", .s (str "whatsapp")),
            ("agent_processed", .b true) ]
        match db.createOrder orderId sender
            (dGet orderDetails "product" (str "Product not specified"))
            quantity bag dbs2 with
        | (dbs3, .error _) => ({ st1 with dbs := dbs3 }, .ok txtSingleShotErr)
        | (dbs3, .ok success) =>
          ({ st1 with dbs := dbs3 },
           .ok (if success then orderConfirmation orderId orderDetails
            else txtCreateFail))

/-- `OrderAgent._handle_order_creation`: an active session is continued
first; otherwise a complete message takes the single-shot path, else the
wizard starts.  (`parsed_message['entities']` is read but unused in the
source.) -/
def handleOrderCreation (db : Db σ) (message sender : Str)
    (_parsed : ParsedMessage) (st : AgentSt σ) : HRes σ :=
  if (st.pending sender).isSome then
    continueOrderCreation db message sender st
  else if isCompleteOrder message then
    createOrderFromMessage db message sender st
  else
    startGuidedOrderCreation message sender st

/-- Status emoji table (default `📦`). -/
def statusEmoji (status : Str) : Str :=
  if status = str "pending" then str "⏳"
  else if status = str "processing" then str "🔄"
  else if status = str "shipped" then str "🚚"
  else if status = str "delivered" then str "✅"
  else if status = str "cancelled" then str "❌"
  else str "📦"

/-- `OrderAgent._format_order_status` (`created_at[:10]` over the
epoch-second rendering of the timestamp). -/
def formatOrderStatus (order : OrderRecord) : Str :=
  statusEmoji order.status ++ str " **Order Status**\n\n**Order ID:** " ++
  order.orderId ++ str "\n**Product:** " ++ order.product ++
  str "\n**Quantity:** " ++ showInt order.quantity ++
  str "\n**Status:** " ++ pyTitle order.status ++
  str "\n**Created:** " ++ (showInt order.createdAt).take 10 ++
  str "\n\nNeed help? Type *contact* or *help*"

/-- `OrderAgent._format_customer_orders` (first five orders). -/
def formatCustomerOrders (orders : List OrderRecord) : Str :=
  if orders.isEmpty then str "📋 No orders found."
  else
    let orderLines := (orders.take 5).map fun o =>
      statusEmoji o.status ++ str " " ++ o.orderId ++ str " - " ++
        o.product ++ str " (" ++ o.status ++ str ")"
    str "📋 **Your Orders**\n\n" ++ List.intercalate (str "\n") orderLines ++
    str "\n\n**To check specific order:**\nType *status* + order number\n*Example:* status 12345\n\n**Need help?** Type *help* or *contact*"

/-- Status-query response when the sender has no orders. -/
def txtNoOrders : Str := str "📋 **No orders found**\n\nYou don\x27t have any orders yet.\n\nWould you like to:\n• Type *order* to place a new order\n• Type *help* for more options"

/-- `OrderAgent._handle_order_status` (store raises propagate to
`handle_message`'s `except`). -/
def handleOrderStatus (db : Db σ) (message sender : Str) (st : AgentSt σ) :
    HRes σ :=
  match extractOrderId message with
  | some oid =>
    match db.getOrder (str "ORD-" ++ oid) st.dbs with
    | (dbs1, .error e) => ({ st with dbs := dbs1 }, .error e)
    | (dbs1, .ok (some order)) =>
      ({ st with dbs := dbs1 }, .ok (formatOrderStatus order))
    | (dbs1, .ok none) =>
      ({ st with dbs := dbs1 },
       .ok (str "❌ Order ORD-" ++ oid ++
        str " not found. Please check the order number and try again."))
  | none =>
    match db.getCustomerOrders sender st.dbs with
    | (dbs1, .error e) => ({ st with dbs := dbs1 }, .error e)
    | (dbs1, .ok orders) =>
      ({ st with dbs := dbs1 },
       .ok (if !orders.isEmpty then formatCustomerOrders orders
        else txtNoOrders))

/-- Cancellation response when the sender owns no cancellable order. -/
def txtNoCancellable : Str := str "❌ You don\x27t have any orders that can be cancelled."

/-- `OrderAgent._handle_order_cancellation`. -/
def handleOrderCancellation (db : Db σ) (message sender : Str)
    (st : AgentSt σ) : HRes σ :=
  match extractOrderId message with
  | some oid =>
    let orderId := str "ORD-" ++ oid
    match db.getOrder orderId st.dbs with
    | (dbs1, .error e) => ({ st with dbs := dbs1 }, .error e)
    | (dbs1, .ok none) =>
      ({ st with dbs := dbs1 },
       .ok (str "❌ Order " ++ orderId ++ str " not found."))
    | (dbs1, .ok (some order)) =>
      if order.customerPhone ≠ sender then
        ({ st with dbs := dbs1 },
         .ok (str "❌ You can only cancel your own orders."))
      else
        let reason :=
          if hasSub (pyLower message) (str "reason:") then
            pyStrip ((pySplitSub (str "reason:") (pyLower message)).getD 1 [])
          else str "Customer request via WhatsApp"
        match db.cancelOrder orderId reason dbs1 with
        | (dbs2, .error e) => ({ st with dbs := dbs2 }, .error e)
        | (dbs2, .ok (success, messageResult)) =>
          ({ st with dbs := dbs2 },
           .ok (if success then
              str "✅ **Order Cancelled**\n\n**Order ID:** " ++ orderId ++
              str "\n**Status:** Cancelled\n**Reason:** " ++ reason ++
              str "\n\nIf you need assistance, type *contact* for support.\nNeed to place a new order? Type *order*"
            else str "❌ **Cannot Cancel Order**\n\n" ++ messageResult))
  | none =>
    match db.getCustomerOrders sender st.dbs with
    | (dbs1, .error e) => ({ st with dbs := dbs1 }, .error e)
    | (dbs1, .ok orders) =>
      let cancellable := orders.filter fun o =>
        !(o.status = str "delivered" || o.status = str "cancelled")
      if !cancellable.isEmpty then
        let orderLines := (cancellable.take 5).map fun o =>
          str "• " ++ o.orderId ++ str " - " ++ o.product ++ str " (" ++
            o.status ++ str ")"
        ({ st with dbs := dbs1 },
         .ok (str "❌ **Cancel Order**\n\nYour cancellable orders:\n" ++
          List.intercalate (str "\n") orderLines ++
          str "\n\nTo cancel, reply with:\n*cancel ORD-XXXXX*\n\n*Example:* cancel ORD-12345\n\n⚠️ Orders can only be cancelled within 24 hours."))
      else ({ st with dbs := dbs1 }, .ok txtNoCancellable)

/-- `OrderAgent._get_order_help`. -/
def txtOrderHelp : Str := str "📦 **Order Help**\n\n**Create Order:**\n• Type *order* and follow the guided process\n• Or send complete details in one message\n\n**Check Status:**\n• Type *status* + order number\n• Type *status* to see all your orders\n\n**Cancel Order:**\n• Type *cancel* + order number\n• Orders can be cancelled within 24 hours\n\n**Need more help?** Type *contact*"

/-- `OrderAgent.handle_message`: dispatch plus the agent-level `except`
that converts any raise into the order-error response. -/
def orderHandleMessage (db : Db σ) (intent : Intent) (message sender : Str)
    (parsed : ParsedMessage) (st : AgentSt σ) : AgentSt σ × Str :=
  let r : HRes σ :=
    match intent with
    | .orderCreate => handleOrderCreation db message sender parsed st
    | .orderStatus => handleOrderStatus db message sender st
    | .orderCancel => handleOrderCancellation db message sender st
    | _ => (st, .ok txtOrderHelp)
  match r with
  | (st1, .error _) => (st1, txtOrderAgentErr)
  | (st1, .ok resp) => (st1, resp)

/-! ### `agents/faq_agent.py`

Control flow is embedded exactly; the long canned response bodies are
abbreviated to their headers (no claim depends on their text, only on the
fact that each branch returns a string). -/

/-- `FAQAgent._is_business_hours` (Mon–Fri 9–17, Sat 10–14, Sun closed). -/
def isBusinessHours (weekday hour : Nat) : Bool :=
  if weekday ≤ 4 then 9 ≤ hour && hour < 17
  else if weekday = 5 then 10 ≤ hour && hour < 14
  else false

/-- `FAQAgent._get_business_hours_response` (body abbreviated). -/
def faqHoursResponse (cfg : Config) (weekday hour : Nat) : Str :=
  str "🕒 **Business Hours**\n\n**" ++ cfg.botName ++
  str "**\n📅 Monday - Friday: " ++ cfg.businessHours ++
  str "\n📅 Saturday: 10:00 AM - 2:00 PM\n📅 Sunday: Closed\n\n**Current Status:** " ++
  (if isBusinessHours weekday hour then str "🟢 We\x27re Open!"
   else str "🔴 Currently Closed")

/-- `FAQAgent._get_contact_response` (body abbreviated). -/
def faqContactResponse (cfg : Config) : Str :=
  str "📞 **Contact Information**\n\n**" ++ cfg.botName ++
  str "**\n\n📧 **Email:** support@company.com\n📱 **Phone:** +1-555-0123\n\n**Business Hours:** " ++
  cfg.businessHours

/-- `FAQAgent._get_delivery_response` (body abbreviated). -/
def faqDeliveryResponse : Str := str "🚚 **Delivery Information**\n\n**Standard Delivery:**\n📦 2-3 business days (most items)"

/-- `FAQAgent._get_payment_response` (body abbreviated). -/
def faqPaymentResponse : Str := str "💳 **Payment Information**\n\n**Accepted Payment Methods:**\n💳 Credit Cards (Visa, MasterCard, Amex)"

/-- `FAQAgent._get_returns_response` (body abbreviated). -/
def faqReturnsResponse : Str := str "🔄 **Returns & Warranty**\n\n**Return Policy:**\n📅 30-day return window"

/-- `FAQAgent._get_products_response` (body abbreviated). -/
def faqProductsResponse : Str := str "🛍️ **Our Products**\n\n**Categories:**\n💻 Electronics & Computers"

/-- `FAQAgent._get_help_response` (body abbreviated). -/
def faqHelpResponse (cfg : Config) : Str :=
  str "🤖 **" ++ cfg.botName ++ str " - How I Can Help**\n\n**📦 Order Management:**\n• *order* - Create a new order\n• *status* - Check order status\n• *cancel* - Cancel an order"

/-- The `self.faqs` table: categories in declaration order with their
keyword lists and responses. -/
def faqTable (cfg : Config) (weekday hour : Nat) :
    List (String × List Str × Str) :=
  [ ("hours", ([str "hours", str "time", str "open", str "close",
      str "when", str "working"], faqHoursResponse cfg weekday hour)),
    ("contact", ([str "contact", str "phone", str "email", str "address",
      str "reach", str "call"], faqContactResponse cfg)),
    ("delivery", ([str "delivery", str "shipping", str "ship",
      str "deliver", str "how long"], faqDeliveryResponse)),
    ("payment", ([str "payment", str "pay", str "price", str "cost",
      str "money", str "credit"], faqPaymentResponse)),
    ("returns", ([str "return", str "refund", str "exchange",
      str "warranty"], faqReturnsResponse)),
    ("products", ([str "products", str "catalog", str "items", str "sell",
      str "available"], faqProductsResponse)) ]

/-- `FAQAgent._handle_general_faq`: keyword-count scoring over the FAQ
table, first maximum wins (`max(d, key=d.get)` over an insertion-ordered
dict), help response when nothing scores. -/
def handleGeneralFaq (cfg : Config) (weekday hour : Nat) (message : Str) :
    Str :=
  let messageLower := pyLower message
  let categoryScores := (faqTable cfg weekday hour).filterMap fun e =>
    let score := e.2.1.countP fun kw => hasSub messageLower kw
    if score > 0 then some (e.2.2, score) else none
  match categoryScores with
  | [] => faqHelpResponse cfg
  | x :: xs =>
    (xs.foldl (fun b y => if y.2 > b.2 then y else b) x).1

/-- `FAQAgent.handle_message` (pure; its `try/except` has no raise site). -/
def faqHandleMessage (cfg : Config) (weekday hour : Nat) (intent : Intent)
    (message : Str) : Str :=
  match intent with
  | .faqHours => faqHoursResponse cfg weekday hour
  | .faqContact => faqContactResponse cfg
  | .help => faqHelpResponse cfg
  | .faqGeneral => handleGeneralFaq cfg weekday hour message
  | _ => faqHelpResponse cfg

/-! ### `agents/reject_agent.py` — response selection -/

/-- `RejectAgent._get_rejection_response` (templates abbreviated to the
first canned sentence of each strategy). -/
def getRejectionResponse (rejectionType : RejectionType) : Str :=
  match rejectionType with
  | .notInterested => str "No problem! Thanks for letting me know.\n\n🤝 **We respect your decision**"
  | .tooExpensive => str "I understand pricing is important. Would you like information about our current promotions?\n\n💰 **Money-Saving Options:**"
  | .wrongTiming => str "No worries! Would you like me to follow up with you at a better time?\n\n⏰ **We understand timing is everything**"
  | .needToThink => str "Of course! Take all the time you need to decide.\n\n🤔 **Take your time!**"
  | .generalNo => str "I understand. Thank you for your time!\n\n🙏 **Thank you for being direct**"

/-- `RejectAgent.handle_message` (analysis plus response; the logging call
is I/O only). -/
def rejectHandleMessage (message : Str) : Str :=
  getRejectionResponse (analyzeRejection message)

/-! ### `agents/manager_agent.py` -/

/-- `ManagerAgent._get_error_response`. -/
def txtManagerErr : Str := str "❌ I encountered an issue processing your request.\n\nPlease try again, or:\n• Type *help* for available commands\n• Type *contact* to reach our support team\n\nSorry for the inconvenience! 🙏"

/-- `ManagerAgent._handle_greeting`: personalized welcome for a stored
customer with a truthy name, generic welcome otherwise; the store lookup
may raise, which propagates to the router's `except` (bodies abbreviated
after the greeting line). -/
def handleGreeting (db : Db σ) (cfg : Config) (sender : Str)
    (st : AgentSt σ) : HRes σ :=
  match db.getCustomer sender st.dbs with
  | (dbs1, .error e) => ({ st with dbs := dbs1 }, .error e)
  | (dbs1, .ok customer) =>
    let personalized :=
      match customer with
      | some c => (match c.name with | some n => !n.isEmpty | none => false)
      | none => false
    match customer with
    | some c =>
      if personalized then
        ({ st with dbs := dbs1 },
         .ok (str "👋 Hello " ++ c.name.getD [] ++
          str "! Welcome back to " ++ cfg.botName ++
          str "!\n\nHow can I assist you today?\n\n💡 **Quick options:**\n• Type *order* - Place a new order\n• Type *status* - Check order status\n• Type *help* - See all commands"))
      else
        ({ st with dbs := dbs1 },
         .ok (str "👋 Hello! Welcome to " ++ cfg.botName ++
          str "!\n\nI\x27m your virtual assistant here to help with:\n📦 Orders and order status\nℹ️ Product information\n📞 Contact details\n🕒 Business hours\n\nType *help* to see all available commands or just tell me what you need! 😊"))
    | none =>
      ({ st with dbs := dbs1 },
       .ok (str "👋 Hello! Welcome to " ++ cfg.botName ++
        str "!\n\nI\x27m your virtual assistant here to help with:\n📦 Orders and order status\nℹ️ Product information\n📞 Contact details\n🕒 Business hours\n\nType *help* to see all available commands or just tell me what you need! 😊"))

/-- `ManagerAgent._handle_unknown_intent`: keyword scan for pricing and
delivery questions before the generic menu (bodies abbreviated). -/
def handleUnknownIntent (message : Str) : Str :=
  let messageLower := pyLower message
  if [str "price", str "cost", str "how much"].any (hasSub messageLower) then
    str "💰 **Pricing Information**\n\nFor product pricing and quotes, please:\n• Type *contact* to speak with our sales team"
  else if [str "delivery", str "shipping", str "when"].any
      (hasSub messageLower) then
    str "🚚 **Delivery Information**\n\nFor delivery details:\n• Type *status* + your order number to track existing orders"
  else
    str "🤔 I didn\x27t quite understand that.\n\nHere\x27s what I can help you with:\n• *order* - Place a new order\n• *status* - Check order status\n• *contact* - Get contact information\n• *help* - See all commands"

/-- `ManagerAgent._route_to_agent`: the dispatch table plus the router
boundary `except` that converts any raised exception into the generic
apology. -/
def routeToAgent (db : Db σ) (cfg : Config) (intent : Intent)
    (message sender : Str) (parsed : ParsedMessage) (st : AgentSt σ) :
    AgentSt σ × Str :=
  let r : HRes σ :=
    match intent with
    | .orderCreate | .orderStatus | .orderCancel =>
      let x := orderHandleMessage db intent message sender parsed st
      (x.1, .ok x.2)
    | .faqGeneral | .faqHours | .faqContact | .help =>
      (st, .ok (faqHandleMessage cfg st.weekday st.hour intent message))
    | .rejectResponse => (st, .ok (rejectHandleMessage message))
    | .greeting => handleGreeting db cfg sender st
    | _ => (st, .ok (handleUnknownIntent message))
  match r with
  | (st1, .error _) => (st1, txtManagerErr)
  | (st1, .ok resp) => (st1, resp)

/-- Classification followed by routing: the part of
`ManagerAgent.handle_incoming_message` between extracting the message and
sending the response (webhook validation, logging and transport are
collaborators outside the core). -/
def routeParsed (db : Db σ) (cfg : Config) (message sender : Str)
    (st : AgentSt σ) : AgentSt σ × Str :=
  let parsed := parseMessage message
  routeToAgent db cfg parsed.intent message sender parsed st

/-! ### Specification-side definitions

These definitions follow the *specification's words* (not the code) and
are compared with the embedded code in the theorems below. -/

/-- Highest score in a scored list (spec side). -/
def maxSc {α : Type} (l : List (α × Nat)) : Nat :=
  l.foldr (fun y m => max y.2 m) 0

/-- Every intent of the pattern table with its total score, in declaration
order. -/
def intentScoresAll (message : Str) : List (Intent × Nat) :=
  intentPatterns.map fun p => (p.1, intentScore message p.2)

/-- The classifier as the specification words it: the intent with the
strictly highest total score wins, ties break by declaration order (first
maximum wins), confidence is `min(total_score * 0.3, 1.0)`; if no intent
scores above zero the result is `Unknown` with confidence `0.0`. -/
def detectIntentSpec (message : Str) : Intent × ℚ :=
  let l := intentScoresAll message
  let m := maxSc l
  if m = 0 then (.unknown, 0)
  else
    match l.find? (fun y => y.2 == m) with
    | some w => (w.1, min ((w.2 : ℚ) * (3 / 10)) 1)
    | none => (.unknown, 0)

/-- The rejection phrase sets in the specification's fixed priority
order. -/
def rejectionPriority : List (RejectionType × List Str) :=
  [ (.notInterested,
      [str "not interested", str "don\x27t want", str "not looking"]),
    (.tooExpensive,
      [str "too expensive", str "too much", str "can\x27t afford",
       str "cost", str "price"]),
    (.wrongTiming,
      [str "not now", str "bad timing", str "busy", str "later"]),
    (.needToThink,
      [str "think about", str "consider", str "decide", str "maybe"]) ]

/-- The rejection classifier as the specification words it: the first
category (in priority order) one of whose phrases occurs in the lowercased
text; `GeneralNo` when none matches. -/
def analyzeRejectionSpec (message : Str) : RejectionType :=
  match rejectionPriority.find?
      (fun e => e.2.any (hasSub (pyLower message))) with
  | some e => e.1
  | none => .generalNo

/-- Longest prefix not containing `c`. -/
def upToCh (c : Char) : Str → Str
  | [] => []
  | x :: xs => if x = c then [] else x :: upToCh c xs

/-- Suffix starting at the first occurrence of `c` (empty when absent). -/
def fromCh (c : Char) : Str → Str
  | [] => []
  | x :: xs => if x = c then x :: xs else fromCh c xs

/-- The text strictly between the first and the second colon of a line
(whole remainder when there is no second colon, empty when there is no
colon). -/
def betweenFirstTwoColons (l : Str) : Str :=
  upToCh ':' ((fromCh ':' l).drop 1)

/-- Uppercase alphanumeric in the sense of the `[A-Z0-9]` class. -/
def isUpAlnumCh (c : Char) : Bool :=
  (65 ≤ c.toNat && c.toNat ≤ 90) || (48 ≤ c.toNat && c.toNat ≤ 57)

/-- The claimed order-id shape `ORD-[A-Z0-9]{8}`. -/
def orderIdPat (s : Str) : Bool :=
  s.take 4 == str "ORD-" &&
  (s.drop 4).length == 8 &&
  (s.drop 4).all isUpAlnumCh

/-- Lowercase hexadecimal digit (`[0-9a-f]`). -/
def isLowHexCh (c : Char) : Bool :=
  (48 ≤ c.toNat && c.toNat ≤ 57) || (97 ≤ c.toNat && c.toNat ≤ 102)

/-- The textual form of `str(uuid.uuid4())`: 36 characters, hyphens at
positions 8, 13, 18 and 23, lowercase hexadecimal elsewhere. -/
def validUuidStr (u : Str) : Bool :=
  u.length == 36 &&
  (List.range 36).all fun i =>
    if i = 8 || i = 13 || i = 18 || i = 23 then u.getD i ' ' == '-'
    else isLowHexCh (u.getD i ' ')

/-! ### Concrete states for the closed scenarios -/

/-- A demo configuration. -/
def cfgDemo : Config := ⟨str "WhatsApp Business Agent", str "9:00-17:00"⟩

/-- Empty store, one uuid in the supply, clock at 1000 s. -/
def st0 : AgentSt DbSt :=
  { pending := fun _ => none
    dbs := ⟨⟨[], []⟩, 1000⟩
    uuids := [str "aabbccdd-1111-2222-3333-444455556666"]
    now := 1000
    weekday := 0
    hour := 10 }

/-- State with an active wizard session for sender `111`, sitting at the
product step with no data collected yet. -/
def stWithSession : AgentSt DbSt :=
  { st0 with pending := fun x =>
      if x = str "111" then some ⟨.product, [], 900⟩ else none }

/-- The complete-order message that supplies no customer name. -/
def msgNoName : Str := str "product: laptop\nphone: 0551234567\naddress: 1 Main St"

/-- A store whose `create_order` always raises, for exercising the wizard's
error path. -/
def throwingDb : Db Unit where
  getCustomer _ s := (s, .ok none)
  createCustomer _ _ _ s := (s, .ok true)
  createOrder _ _ _ _ _ s := (s, .error ⟨()⟩)
  getOrder _ s := (s, .ok none)
  getCustomerOrders _ s := (s, .ok [])
  cancelOrder _ _ s := (s, .ok (false, []))

/-- State over the throwing store with a session at the final (address)
step. -/
def stAtAddress : AgentSt Unit :=
  { pending := fun x =>
      if x = str "5" then
        some ⟨.address, [("product", str "tv"), ("customer_name", str "j"),
          ("customer_phone", str "5")], 0⟩
      else none
    dbs := ()
    uuids := [str "aabbccdd-1111-2222-3333-444455556666"]
    now := 0
    weekday := 0
    hour := 0 }

/-- A parsed-message value for calls whose `parsed_message` argument is
dead in the exercised path (the wizard reads only the raw text). -/
def dummyParsed : ParsedMessage :=
  { originalMessage := [], intent := .unknown, confidence := 0,
    entities := [], messageLength := 0, wordCount := 0 }

/-- Concrete-store state with a session at the address step (order-id
format scenario). -/
def stC9 : AgentSt DbSt :=
  { st0 with pending := fun x =>
      if x = str "5" then some ⟨.address, [("product", str "tv")], 0⟩
      else none }

/-! ## Theorems -/

/-- C2: starting a guided session for sender `77` and delivering the four
answers "Laptop", "Jane Doe", "555-0123", "1 Main St" in sequence to the
order-creation handler commits an order through the store whose detail bag
holds all four fields with those values, and leaves no pending session for
the sender. -/
theorem c2_guided_wizard_commits_order :
    (let sender := str "77"
     let s1 := (startGuidedOrderCreation (str "I want to order") sender
       st0).1
     let s2 := (handleOrderCreation concreteDb (str "Laptop") sender
       dummyParsed s1).1
     let s3 := (handleOrderCreation concreteDb (str "Jane Doe") sender
       dummyParsed s2).1
     let s4 := (handleOrderCreation concreteDb (str "555-0123") sender
       dummyParsed s3).1
     let r5 := handleOrderCreation concreteDb (str "1 Main St") sender
       dummyParsed s4
     ∃ rec, r5.1.dbs.db.orders.lookup (str "ORD-AABBCCDD") = some rec ∧
       rec.details.lookup "product" = some (.s (str "Laptop")) ∧
       rec.details.lookup "customer_name" = some (.s (str "Jane Doe")) ∧
       rec.details.lookup "customer_phone" = some (.s (str "555-0123")) ∧
       rec.details.lookup "address" = some (.s (str "1 Main St")) ∧
       r5.1.pending sender = none) := by
  exact ⟨_, rfl, rfl, rfl, rfl, rfl, rfl⟩

/-- C7: the single-shot order-creation path, fed a complete message that
supplies no customer name, creates the sender's customer record with the
*empty* name — not `"Unknown"`: `extract_order_details` always populates
`customer_name` (default `''`), so the `'Unknown'` fallback of
`order_details.get('customer_name', 'Unknown')` is dead code. -/
theorem c7_single_shot_creates_blank_name_customer :
    isCompleteOrder msgNoName = true ∧
    (extractOrderDetails msgNoName).lookup "customer_name" = some [] ∧
    (let r := handleOrderCreation concreteDb msgNoName (str "99")
       dummyParsed st0
     ∃ c, r.1.dbs.db.customers.lookup (str "99") = some c ∧
       c.name = some [] ∧ ([] : Str) ≠ str "Unknown") := by
  refine ⟨by decide, by decide, ⟨_, rfl, rfl, by decide⟩⟩

/-- No split result is the empty list of pieces. -/
theorem splitOnCh_ne_nil (c : Char) (l : Str) : splitOnCh c l ≠ [] := by
  induction l with
  | nil => simp [splitOnCh]
  | cons x xs ih =>
    by_cases h : x = c
    · simp [splitOnCh, h]
    · simp only [splitOnCh, if_neg h]
      cases hr : splitOnCh c xs with
      | nil => exact absurd hr ih
      | cons a t => simp

/-- The first piece of a split is the text before the first separator. -/
theorem splitOnCh_getD_zero (c : Char) (l : Str) :
    (splitOnCh c l).getD 0 [] = upToCh c l := by
  induction l with
  | nil => rfl
  | cons x xs ih =>
    by_cases h : x = c
    · subst h
      have hs : splitOnCh x (x :: xs) = [] :: splitOnCh x xs := by
        simp [splitOnCh]
      have hu : upToCh x (x :: xs) = [] := by simp [upToCh]
      rw [hs, hu]
      rfl
    · cases hr : splitOnCh c xs with
      | nil => exact absurd hr (splitOnCh_ne_nil c xs)
      | cons a t =>
        have hs : splitOnCh c (x :: xs) = (x :: a) :: t := by
          simp [splitOnCh, h, hr]
        have hu : upToCh c (x :: xs) = x :: upToCh c xs := by
          simp [upToCh, h]
        rw [hr] at ih
        rw [hs, hu]
        show x :: a = x :: upToCh c xs
        rw [← ih]
        rfl

/-- The second piece of a split is the text strictly between the first and
second separator. -/
theorem splitOnCh_getD_one (c : Char) (l : Str) :
    (splitOnCh c l).getD 1 [] = upToCh c ((fromCh c l).drop 1) := by
  induction l with
  | nil => rfl
  | cons x xs ih =>
    by_cases h : x = c
    · subst h
      have hs : splitOnCh x (x :: xs) = [] :: splitOnCh x xs := by
        simp [splitOnCh]
      have hf : fromCh x (x :: xs) = x :: xs := by simp [fromCh]
      rw [hs, hf]
      show (splitOnCh x xs).getD 0 [] = upToCh x xs
      exact splitOnCh_getD_zero x xs
    · cases hr : splitOnCh c xs with
      | nil => exact absurd hr (splitOnCh_ne_nil c xs)
      | cons a t =>
        have hs : splitOnCh c (x :: xs) = (x :: a) :: t := by
          simp [splitOnCh, h, hr]
        have hf : fromCh c (x :: xs) = fromCh c xs := by
          simp [fromCh, h]
        rw [hr] at ih
        rw [hs, hf]
        exact ih

/-- Splitting on an absent separator yields the whole string. -/
theorem splitOnCh_not_mem {c : Char} {l : Str} (h : c ∉ l) :
    splitOnCh c l = [l] := by
  induction l with
  | nil => rfl
  | cons x xs ih =>
    have hx : x ≠ c := fun hh => h (hh ▸ List.mem_cons_self x xs)
    have hxs : c ∉ xs := fun hh => h (List.mem_cons_of_mem x hh)
    simp [splitOnCh, hx, ih hxs]

/-- Looking up the key just written by a dictionary update. -/
theorem lookup_dUpd_self {κ β : Type} [DecidableEq κ] [BEq κ] [LawfulBEq κ]
    (d : List (κ × β)) (k : κ) (v : β) :
    (dUpd d k v).lookup k = some v := by
  induction d with
  | nil => simp [dUpd, List.lookup]
  | cons p t ih =>
    obtain ⟨a, b⟩ := p
    by_cases h : a = k
    · simp [dUpd, h, List.lookup]
    · simp only [dUpd, if_neg h, List.lookup]
      have hb : (k == a) = false := beq_eq_false_iff_ne.mpr (Ne.symm h)
      rw [hb]
      exact ih

/-- A dictionary update leaves the other keys unchanged. -/
theorem lookup_dUpd_ne {κ β : Type} [DecidableEq κ] [BEq κ] [LawfulBEq κ]
    (d : List (κ × β)) (k k' : κ) (v : β) (h : k ≠ k') :
    (dUpd d k' v).lookup k = d.lookup k := by
  induction d with
  | nil =>
    simp [dUpd, List.lookup, beq_eq_false_iff_ne.mpr h]
  | cons p t ih =>
    obtain ⟨a, b⟩ := p
    by_cases ha : a = k'
    · subst ha
      simp only [dUpd, if_pos rfl, List.lookup]
      rw [beq_eq_false_iff_ne.mpr h]
    · simp only [dUpd, if_neg ha, List.lookup]
      cases hb : k == a with
      | true => rfl
      | false => exact ih

/-- C10: for a labeled line (here an `address:` line that is not also a
`name:`/`phone:` line), `extract_order_details` stores the trimmed text
strictly between the first and the second colon of the line — anything
after a second colon is silently dropped. -/
theorem c10_labeled_value_between_first_two_colons :
    ∀ message : Str,
      pyStrip message = message →
      ('\n') ∉ message →
      hasSub (pyLower message) (str "name:") = false →
      hasSub (pyLower message) (str "phone:") = false →
      hasSub (pyLower message) (str "address:") = true →
      (extractOrderDetails message).lookup "address" =
        some (pyStrip (betweenFirstTwoColons message)) := by
  intro message hstrip hnl hname hphone haddr
  unfold extractOrderDetails
  rw [hstrip, splitOnCh_not_mem hnl]
  simp only [List.foldl_cons, List.foldl_nil]
  rw [hstrip]
  simp only [hname, hphone, haddr, Bool.false_eq_true, if_false, if_true]
  show (dSet (dSet _ "address" _) "notes" _).lookup "address" = _
  rw [dSet, dSet, lookup_dUpd_ne _ _ _ _ (by decide),
    lookup_dUpd_self, splitOnCh_getD_one]
  rfl

/-- Witness for C10 at the line "Address: 1 Main St: Apt 2": the stored
address is "1 Main St", not "1 Main St: Apt 2". -/
theorem c10_labeled_value_witness :
    (extractOrderDetails (str "Address: 1 Main St: Apt 2")).lookup "address"
      = some (str "1 Main St") ∧
    str "1 Main St" ≠ str "1 Main St: Apt 2" := by
  have h := c10_labeled_value_between_first_two_colons
    (str "Address: 1 Main St: Apt 2") (by decide) (by decide) (by decide)
    (by decide) (by decide)
  rw [h]
  exact ⟨by decide, by decide⟩

/-- C5: for every input text the rejection classifier returns exactly the
first `RejectionType` (in the fixed priority order `NotInterested`,
`TooExpensive`, `WrongTiming`, `NeedToThink`, then `GeneralNo`) whose
phrase set matches; in particular text containing both "too expensive" and
"not interested" classifies as `NotInterested`. -/
theorem c5_rejection_priority_order :
    ∀ message : Str,
      analyzeRejection message = analyzeRejectionSpec message ∧
      (hasSub (pyLower message) (str "too expensive") = true →
       hasSub (pyLower message) (str "not interested") = true →
       analyzeRejection message = .notInterested) := by
  intro message
  constructor
  · cases hA : ([str "not interested", str "don\x27t want",
      str "not looking"].any (hasSub (pyLower message))) <;>
    cases hB : ([str "too expensive", str "too much",
      str "can\x27t afford", str "cost", str "price"].any
        (hasSub (pyLower message))) <;>
    cases hC : ([str "not now", str "bad timing", str "busy",
      str "later"].any (hasSub (pyLower message))) <;>
    cases hD : ([str "think about", str "consider", str "decide",
      str "maybe"].any (hasSub (pyLower message))) <;>
    simp only [analyzeRejection, analyzeRejectionSpec, rejectionPriority,
      List.find?, hA, hB, hC, hD, if_true, if_false] <;> rfl
  · intro _ h3
    have hm : ([str "not interested", str "don\x27t want",
        str "not looking"].any (hasSub (pyLower message))) = true := by
      simp only [List.any_cons, List.any_nil, Bool.or_eq_true]
      exact Or.inl h3
    simp [analyzeRejection, hm]

/-- Witness for C5 at a concrete text containing both phrases. -/
theorem c5_rejection_priority_witness :
    analyzeRejection (str "it is too expensive and i am not interested") =
      .notInterested :=
  (c5_rejection_priority_order
    (str "it is too expensive and i am not interested")).2
    (by decide) (by decide)

/-- C6: `cancel_order` fails with a failure flag and a non-empty message
whenever the order does not exist, is already delivered or cancelled, or
more than 24 hours (86400 s) have elapsed since its creation; and every
failing cancellation leaves the store unchanged. -/
theorem c6_cancel_order_fails_safely :
    ∀ (db : DbState) (now : Int) (orderId : Str) (reason : Option Str),
      ((dbGetOrder db orderId = none ∨
        (∃ o, dbGetOrder db orderId = some o ∧
          (o.status = str "delivered" ∨ o.status = str "cancelled")) ∨
        (∃ o, dbGetOrder db orderId = some o ∧ 86400 < now - o.createdAt)) →
        (dbCancelOrder db now orderId reason).2.1 = false ∧
        (dbCancelOrder db now orderId reason).2.2 ≠ []) ∧
      ((dbCancelOrder db now orderId reason).2.1 = false →
        (dbCancelOrder db now orderId reason).1 = db) := by
  intro db now orderId reason
  cases hget : dbGetOrder db orderId with
  | none =>
    refine ⟨fun _ => ⟨by simp [dbCancelOrder, hget], ?_⟩,
      fun _ => by simp [dbCancelOrder, hget]⟩
    simp [dbCancelOrder, hget]
    decide
  | some o =>
    by_cases hstat : o.status = str "delivered" ∨ o.status = str "cancelled"
    · rcases hstat with h | h <;>
        refine ⟨fun _ => ⟨by simp [dbCancelOrder, hget, h], ?_⟩,
          fun _ => by simp [dbCancelOrder, hget, h]⟩ <;>
        simp [dbCancelOrder, hget, h, str]
    · rw [not_or] at hstat
      obtain ⟨h1, h2⟩ := hstat
      by_cases hdays : (1:Int) ≤ (now - o.createdAt).fdiv 86400
      · refine ⟨fun _ => ⟨by simp [dbCancelOrder, hget, h1, h2, hdays], ?_⟩,
          fun _ => by simp [dbCancelOrder, hget, h1, h2, hdays]⟩
        simp [dbCancelOrder, hget, h1, h2, hdays]
        decide
      · constructor
        · intro hyp
          exfalso
          rcases hyp with hnone | ⟨o2, ho2, hdel⟩ | ⟨o2, ho2, helapsed⟩
          · exact Option.noConfusion hnone
          · injection ho2 with ho2; subst ho2
            rcases hdel with h | h
            · exact h1 h
            · exact h2 h
          · injection ho2 with ho2; subst ho2
            apply hdays
            rw [Int.fdiv_eq_ediv _ (by omega : (0:Int) ≤ 86400)]
            rw [Int.le_ediv_iff_mul_le (by omega : (0:Int) < 86400)]
            omega
        · intro hflag
          exfalso
          have ht : (dbCancelOrder db now orderId reason).2.1 = true := by
            simp [dbCancelOrder, hget, h1, h2, hdays, dbUpdateOrderStatus]
          rw [hflag] at ht
          exact Bool.noConfusion ht

/-- Witness for C6: cancelling a non-existent order on the empty store
fails with a message and leaves the store unchanged. -/
theorem c6_cancel_order_fails_safely_witness :
    (dbCancelOrder ⟨[], []⟩ 0 (str "ORD-X") none).2.1 = false ∧
    (dbCancelOrder ⟨[], []⟩ 0 (str "ORD-X") none).2.2 ≠ [] ∧
    (dbCancelOrder ⟨[], []⟩ 0 (str "ORD-X") none).1 = ⟨[], []⟩ := by
  have h := c6_cancel_order_fails_safely ⟨[], []⟩ 0 (str "ORD-X") none
  have h1 := h.1 (Or.inl (by decide))
  exact ⟨h1.1, h1.2, h.2 h1.1⟩

/-- C1 counterexample: sender `111` has an active `PendingOrder` session at
the product step, yet the inbound message "hello" — classified as
`Greeting`, not order-create — is routed to the greeting handler and the
session is left exactly as it was (still at the product step with no data),
so it is *not* treated as the answer to the session's current step and the
session does not advance by one step. -/
theorem c1_session_priority_counterexample :
    (parseMessage (str "hello")).intent = Intent.greeting ∧
    (parseMessage (str "hello")).intent ≠ Intent.orderCreate ∧
    stWithSession.pending (str "111") = some ⟨.product, [], 900⟩ ∧
    (routeParsed concreteDb cfgDemo (str "hello") (str "111")
      stWithSession).1.pending (str "111") = some ⟨.product, [], 900⟩ :=
  ⟨rfl, by decide, rfl, rfl⟩

/-- C1 (amended): *within the order-create path*, a sender with an active
session has the message applied to the session's current step before any
other interpretation (in particular before the complete-order single-shot
shortcut); the wizard never restarts from the product step and advances by
exactly one step — storing the trimmed message and moving to the next step,
or, at the address step, committing and deleting the session. -/
theorem c1_session_continues_in_order_create_path :
    ∀ (σ : Type) (db : Db σ) (message sender : Str)
      (parsed : ParsedMessage) (st : AgentSt σ) (od : PendingOrder),
      st.pending sender = some od →
      handleOrderCreation db message sender parsed st =
        continueOrderCreation db message sender st ∧
      ((handleOrderCreation db message sender parsed st).1.pending sender =
        match od.step with
        | .product => some ⟨.name,
            dSet od.data "product" (pyStrip message), od.startedAt⟩
        | .name => some ⟨.phone,
            dSet od.data "customer_name" (pyStrip message), od.startedAt⟩
        | .phone => some ⟨.address,
            dSet od.data "customer_phone" (pyStrip message), od.startedAt⟩
        | .address => none) := by
  intro σ db message sender parsed st od h
  have hs : (st.pending sender).isSome = true := by rw [h]; rfl
  have h1 : handleOrderCreation db message sender parsed st =
      continueOrderCreation db message sender st := by
    simp [handleOrderCreation, hs]
  refine ⟨h1, ?_⟩
  rw [h1]
  obtain ⟨step, data, t⟩ := od
  cases step with
  | product => simp [continueOrderCreation, h, pendingSet]
  | name => simp [continueOrderCreation, h, pendingSet]
  | phone => simp [continueOrderCreation, h, pendingSet]
  | address =>
    simp only [continueOrderCreation, h]
    repeat' split
    all_goals simp [pendingDel]

/-- Witness for the amended C1 at the product step: the message "Laptop"
is consumed as the product answer and the session advances to the name
step. -/
theorem c1_session_continues_witness :
    handleOrderCreation concreteDb (str "Laptop") (str "111") dummyParsed
        stWithSession =
      continueOrderCreation concreteDb (str "Laptop") (str "111")
        stWithSession ∧
    (handleOrderCreation concreteDb (str "Laptop") (str "111") dummyParsed
        stWithSession).1.pending (str "111") =
      some ⟨.name, dSet [] "product" (pyStrip (str "Laptop")), 900⟩ := by
  have h := c1_session_continues_in_order_create_path DbSt concreteDb
    (str "Laptop") (str "111") dummyParsed stWithSession
    ⟨.product, [], 900⟩ rfl
  exact ⟨h.1, h.2⟩

/-- C3: for every intent, message, sender and store behaviour — including
stores whose operations raise — routing returns a plain response string
(`routeToAgent` catches every raise at the router boundary, the order agent
at its own boundary); moreover the wizard-continuation handler can only
propagate a raise when the sender has *no* session (the unreachable
`KeyError` outside its `try`), and whenever it catches an error — returning
its restart message — the sender's session has been deleted. -/
theorem c3_routing_contains_errors :
    ∀ (σ : Type) (db : Db σ) (cfg : Config) (intent : Intent)
      (message sender : Str) (parsed : ParsedMessage) (st : AgentSt σ),
      (∃ st1 resp, routeToAgent db cfg intent message sender parsed st =
        (st1, resp)) ∧
      (∀ st2 e, continueOrderCreation db message sender st =
        (st2, Except.error e) → st.pending sender = none) ∧
      (∀ st2 r2, continueOrderCreation db message sender st =
        (st2, Except.ok r2) → r2 = txtContinueErr →
        st2.pending sender = none) := by
  intro σ db cfg intent message sender parsed st
  refine ⟨⟨_, _, rfl⟩, ?_, ?_⟩
  · intro st2 e hEq
    cases h : st.pending sender with
    | none => rfl
    | some od =>
      exfalso
      obtain ⟨step, data, t⟩ := od
      cases step <;> simp only [continueOrderCreation, h] at hEq
      case product => simp at hEq
      case name => simp at hEq
      case phone => simp at hEq
      case address =>
        repeat' split at hEq
        all_goals simp at hEq
  · intro st2 r2 hEq hr2
    cases h : st.pending sender with
    | none =>
      exfalso
      simp only [continueOrderCreation, h] at hEq
      simp at hEq
    | some od =>
      obtain ⟨step, data, t⟩ := od
      cases step <;> simp only [continueOrderCreation, h] at hEq
      case product =>
        exfalso
        injection hEq with hA hB
        injection hB with hB
        exact absurd (hB.trans hr2) (by decide)
      case name =>
        exfalso
        injection hEq with hA hB
        injection hB with hB
        exact absurd (hB.trans hr2) (by decide)
      case phone =>
        exfalso
        injection hEq with hA hB
        injection hB with hB
        exact absurd (hB.trans hr2) (by decide)
      case address =>
        repeat' split at hEq
        all_goals injection hEq with hA hB
        all_goals rw [← hA]
        all_goals simp [pendingDel]

/-- Witness for C3: against a store whose `create_order` raises, finishing
the wizard at the address step deletes the session. -/
theorem c3_routing_contains_errors_witness :
    (continueOrderCreation throwingDb (str "1 Main St") (str "5")
      stAtAddress).1.pending (str "5") = none := by
  have h := (c3_routing_contains_errors Unit throwingDb cfgDemo
    .orderCreate (str "1 Main St") (str "5") dummyParsed stAtAddress).2.2
  exact h ((continueOrderCreation throwingDb (str "1 Main St") (str "5")
    stAtAddress).1) txtContinueErr rfl rfl

/-- Unfolding of the spec-side maximum. -/
theorem maxSc_cons {α : Type} (y : α × Nat) (t : List (α × Nat)) :
    maxSc (y :: t) = max y.2 (maxSc t) := rfl

/-- The maximum score is zero exactly when every score is zero. -/
theorem maxSc_eq_zero_iff {α : Type} (l : List (α × Nat)) :
    maxSc l = 0 ↔ ∀ x ∈ l, x.2 = 0 := by
  induction l with
  | nil => simp [maxSc]
  | cons y t ih =>
    rw [maxSc_cons, Nat.max_eq_zero_iff, ih]
    constructor
    · rintro ⟨h1, h2⟩ x hx
      rcases List.mem_cons.mp hx with rfl | hx
      · exact h1
      · exact h2 x hx
    · intro h
      exact ⟨h y (List.mem_cons_self y t),
        fun x hx => h x (List.mem_cons_of_mem y hx)⟩

/-- A non-zero maximum is attained, so the first-maximum search succeeds. -/
theorem find?_isSome_of_maxSc_ne {α : Type} (l : List (α × Nat))
    (h : maxSc l ≠ 0) :
    (l.find? fun y => y.2 == maxSc l).isSome := by
  induction l with
  | nil => simp [maxSc] at h
  | cons y t ih =>
    by_cases hy : y.2 = maxSc (y :: t)
    · simp [List.find?, hy]
    · have heq : maxSc (y :: t) = maxSc t := by
        rcases max_choice y.2 (maxSc t) with h1 | h1
        · exact absurd ((maxSc_cons y t).trans h1).symm hy
        · exact (maxSc_cons y t).trans h1
      rw [List.find?]
      have hb : (y.2 == maxSc (y :: t)) = false := by simpa using hy
      rw [hb, heq]
      exact ih (heq ▸ h)

/-- The default of `Option.getD` is irrelevant on a `some`. -/
theorem getD_congr_of_isSome {α : Type} {o : Option α} (h : o.isSome)
    (d1 d2 : α) : o.getD d1 = o.getD d2 := by
  obtain ⟨w, hw⟩ := Option.isSome_iff_exists.mp h
  rw [hw]
  rfl

/-- Folding Python's `max(d, key=d.get)` selection (replace only on a
strictly greater score) over the positive-score sublist, starting from a
positive accumulator, yields the accumulator if nothing beats it and
otherwise the *first* entry attaining the maximum. -/
theorem pyMax_filterPos {α : Type} (l : List (α × Nat)) :
    ∀ (b : α × Nat), 0 < b.2 →
    ((l.filterMap fun x => if x.2 > 0 then some x else none).foldl
      (fun b y => if y.2 > b.2 then y else b) b)
    = if maxSc l ≤ b.2 then b
      else (l.find? fun y => y.2 == maxSc l).getD b := by
  induction l with
  | nil =>
    intro b hb
    simp [maxSc]
  | cons y t ih =>
    intro b hb
    by_cases hy : y.2 > 0
    · have hfc : (List.filterMap
          (fun x => if x.2 > 0 then some x else none) (y :: t)) =
          y :: List.filterMap (fun x => if x.2 > 0 then some x else none) t :=
        by simp [List.filterMap_cons, hy]
      rw [hfc, List.foldl_cons]
      by_cases h1 : y.2 > b.2
      · rw [if_pos h1, ih y hy]
        by_cases h2 : maxSc t ≤ y.2
        · have hm : maxSc (y :: t) = y.2 := by
            rw [maxSc_cons]; exact max_eq_left h2
          rw [if_pos h2, if_neg (by rw [hm]; omega)]
          rw [List.find?]
          have hbq : (y.2 == maxSc (y :: t)) = true := by simp [hm]
          rw [hbq]
          rfl
        · push_neg at h2
          have hm : maxSc (y :: t) = maxSc t := by
            rw [maxSc_cons]; exact max_eq_right (le_of_lt h2)
          rw [if_neg (by omega), if_neg (by rw [hm]; omega)]
          rw [List.find?]
          have hbq : (y.2 == maxSc (y :: t)) = false := by
            rw [hm]; simp; omega
          rw [hbq, hm]
          exact getD_congr_of_isSome
            (find?_isSome_of_maxSc_ne t (by omega)) y b
      · push_neg at h1
        rw [if_neg (by omega), ih b hb]
        by_cases h2 : maxSc t ≤ b.2
        · rw [if_pos h2,
            if_pos (by rw [maxSc_cons]; exact max_le h1 h2)]
        · push_neg at h2
          have hm : maxSc (y :: t) = maxSc t := by
            rw [maxSc_cons]; exact max_eq_right (by omega)
          rw [if_neg (by omega), if_neg (by rw [hm]; omega)]
          rw [List.find?]
          have hbq : (y.2 == maxSc (y :: t)) = false := by
            rw [hm]; simp; omega
          rw [hbq, hm]
    · have hy0 : y.2 = 0 := by omega
      have hfc : (List.filterMap
          (fun x => if x.2 > 0 then some x else none) (y :: t)) =
          List.filterMap (fun x => if x.2 > 0 then some x else none) t := by
        simp [List.filterMap_cons, hy]
      rw [hfc, ih b hb]
      have hm : maxSc (y :: t) = maxSc t := by
        rw [maxSc_cons, hy0]; simp
      by_cases h2 : maxSc t ≤ b.2
      · rw [if_pos h2, if_pos (by rw [hm]; omega)]
      · push_neg at h2
        rw [if_neg (by omega), if_neg (by rw [hm]; omega)]
        rw [List.find?]
        have hbq : (y.2 == maxSc (y :: t)) = false := by
          rw [hm, hy0]; simp; omega
        rw [hbq, hm]

/-- Starting the fold from the head of the positive-score sublist selects
the first entry attaining the maximum of the whole list. -/
theorem pyMax_head {α : Type} (l : List (α × Nat)) :
    ∀ x xs,
    (l.filterMap fun z => if z.2 > 0 then some z else none) = x :: xs →
    (xs.foldl (fun b y => if y.2 > b.2 then y else b) x
      = (l.find? fun y => y.2 == maxSc l).getD x) ∧ maxSc l ≠ 0 := by
  induction l with
  | nil => intro x xs h; simp at h
  | cons y t ih =>
    intro x xs hfp
    by_cases hy : y.2 > 0
    · have hfc : (List.filterMap
          (fun z => if z.2 > 0 then some z else none) (y :: t)) =
          y :: List.filterMap (fun z => if z.2 > 0 then some z else none) t :=
        by simp [List.filterMap_cons, hy]
      rw [hfc] at hfp
      injection hfp with hx hxs
      subst hx
      subst hxs
      have hne : maxSc (y :: t) ≠ 0 := by
        have hle := le_max_left y.2 (maxSc t)
        rw [maxSc_cons]
        omega
      refine ⟨?_, hne⟩
      rw [pyMax_filterPos t y hy]
      by_cases h2 : maxSc t ≤ y.2
      · have hm : maxSc (y :: t) = y.2 := by
          rw [maxSc_cons]; exact max_eq_left h2
        rw [if_pos h2, List.find?]
        have hbq : (y.2 == maxSc (y :: t)) = true := by simp [hm]
        rw [hbq]
        rfl
      · push_neg at h2
        have hm : maxSc (y :: t) = maxSc t := by
          rw [maxSc_cons]; exact max_eq_right (le_of_lt h2)
        rw [if_neg (by omega), List.find?]
        have hbq : (y.2 == maxSc (y :: t)) = false := by
          rw [hm]; simp; omega
        rw [hbq, hm]
    · have hy0 : y.2 = 0 := by omega
      have hfc : (List.filterMap
          (fun z => if z.2 > 0 then some z else none) (y :: t)) =
          List.filterMap (fun z => if z.2 > 0 then some z else none) t := by
        simp [List.filterMap_cons, hy]
      rw [hfc] at hfp
      obtain ⟨ih1, ih2⟩ := ih x xs hfp
      have hm : maxSc (y :: t) = maxSc t := by
        rw [maxSc_cons, hy0]; simp
      refine ⟨?_, by rw [hm]; exact ih2⟩
      rw [List.find?]
      have hbq : (y.2 == maxSc (y :: t)) = false := by
        rw [hm, hy0]; simp; omega
      rw [hbq, hm]
      exact ih1

/-- C4: for every input text the classifier returns the intent with the
strictly highest summed regex-match count, breaking ties by the pattern
table's declaration order (first maximum wins), with confidence
`min(total_score * 0.3, 1.0)`; when no pattern matches it returns
`Unknown` with confidence exactly `0.0`; and the confidence always lies in
`[0, 1]`. -/
theorem c4_classifier_first_max_wins :
    ∀ message : Str,
      detectIntent message = detectIntentSpec message ∧
      0 ≤ (detectIntent message).2 ∧ (detectIntent message).2 ≤ 1 := by
  intro message
  have hfm : (intentPatterns.filterMap fun p =>
      let score := intentScore message p.2
      if score > 0 then some (p.1, score) else none)
    = ((intentPatterns.map fun p => (p.1, intentScore message p.2)).filterMap
        fun x => if x.2 > 0 then some x else none) := by
    rw [List.filterMap_map]
    rfl
  have heq : detectIntent message = detectIntentSpec message := by
    unfold detectIntent detectIntentSpec intentScoresAll
    rw [hfm]
    cases hfp : ((intentPatterns.map fun p =>
        (p.1, intentScore message p.2)).filterMap
        fun x => if x.2 > 0 then some x else none) with
    | nil =>
      have hmz : maxSc (intentPatterns.map fun p =>
          (p.1, intentScore message p.2)) = 0 := by
        rw [maxSc_eq_zero_iff]
        intro x hx
        have hnone := List.filterMap_eq_nil_iff.mp hfp x hx
        by_cases h : x.2 > 0
        · simp [h] at hnone
        · omega
      simp [hmz]
    | cons x xs =>
      obtain ⟨h1, h2⟩ := pyMax_head _ x xs hfp
      have hsome := find?_isSome_of_maxSc_ne
        (intentPatterns.map fun p => (p.1, intentScore message p.2)) h2
      obtain ⟨w, hw⟩ := Option.isSome_iff_exists.mp hsome
      simp only [h1, hw, Option.getD_some, if_neg h2]
  refine ⟨heq, ?_⟩
  rw [heq]
  unfold detectIntentSpec
  by_cases hm : maxSc (intentScoresAll message) = 0
  · simp [hm]
  · simp only [if_neg hm]
    cases hfind : (intentScoresAll message).find?
        (fun y => y.2 == maxSc (intentScoresAll message)) with
    | none => simp [hfind]
    | some w =>
      simp only [hfind]
      constructor
      · exact le_min (by positivity) (by norm_num)
      · exact min_le_right _ _

set_option maxRecDepth 4096 in
/-- Upper-casing a lowercase hexadecimal digit yields an uppercase
alphanumeric character. -/
theorem upAlnum_toUpper_of_lowHex {c : Char} (h : isLowHexCh c = true) :
    isUpAlnumCh c.toUpper = true := by
  have hall : ∀ n : Fin 256, isLowHexCh (Char.ofNat n.val) = true →
      isUpAlnumCh ((Char.ofNat n.val).toUpper) = true := by decide
  have hb : c.toNat < 256 := by
    simp only [isLowHexCh, Bool.or_eq_true, Bool.and_eq_true,
      decide_eq_true_eq] at h
    omega
  have := hall ⟨c.toNat, hb⟩
  rw [Char.ofNat_toNat] at this
  exact this h

/-- A uuid string has 36 characters and its first 8 are lowercase hex. -/
theorem uuid_first8 {u : Str} (h : validUuidStr u = true) :
    u.length = 36 ∧ ∀ i < 8, isLowHexCh (u.getD i ' ') = true := by
  simp only [validUuidStr, Bool.and_eq_true, beq_iff_eq,
    List.all_eq_true] at h
  obtain ⟨h1, h2⟩ := h
  refine ⟨h1, fun i hi => ?_⟩
  have hm : i ∈ List.range 36 := List.mem_range.mpr (by omega)
  have hcond := h2 i hm
  have hng : ¬(i = 8 || i = 13 || i = 18 || i = 23) = true := by
    simp only [Bool.or_eq_true, decide_eq_true_eq, not_or]
    omega
  rw [if_neg hng] at hcond
  exact hcond

/-- The order id built from a valid uuid string matches
`ORD-[A-Z0-9]{8}`. -/
theorem orderIdPat_mkOrderId {u : Str} (h : validUuidStr u = true) :
    orderIdPat (mkOrderId u) = true := by
  obtain ⟨hlen, hhex⟩ := uuid_first8 h
  have htk : (str "ORD-" ++ (u.take 8).map Char.toUpper).take 4 =
      str "ORD-" := by
    have h4 : (str "ORD-").length = 4 := rfl
    rw [← h4, List.take_left]
  have hdr : (str "ORD-" ++ (u.take 8).map Char.toUpper).drop 4 =
      (u.take 8).map Char.toUpper := by
    have h4 : (str "ORD-").length = 4 := rfl
    rw [← h4, List.drop_left]
  have hlen8 : ((u.take 8).map Char.toUpper).length = 8 := by
    rw [List.length_map, List.length_take]
    omega
  simp only [orderIdPat, mkOrderId, htk, hdr, hlen8, Bool.and_eq_true,
    beq_iff_eq]
  refine ⟨⟨trivial, trivial⟩, ?_⟩
  rw [List.all_eq_true]
  intro x hx
  obtain ⟨c, hc, rfl⟩ := List.mem_map.mp hx
  obtain ⟨i, hilt, hci⟩ := List.mem_iff_getElem.mp hc
  have hi8 : i < 8 := by
    have hl := hilt
    rw [List.length_take] at hl
    omega
  have hiu : i < u.length := by omega
  have hgv : (u.take 8)[i] = u[i] := List.getElem_take u
  have hgd : u.getD i ' ' = u[i] := by
    rw [List.getD_eq_getElem?_getD, List.getElem?_eq_getElem hiu]
    rfl
  apply upAlnum_toUpper_of_lowHex
  rw [← hci, hgv, ← hgd]
  exact hhex i hi8

/-- `create_order` either leaves the orders table unchanged or appends the
single new row under the given id. -/
theorem dbCreateOrder_orders_cases (db : DbState) (now : Int)
    (oid phone prod : Str) (q : Int) (det : List (String × DVal)) :
    (dbCreateOrder db now oid phone prod q det).1.orders = db.orders ∨
    ∃ row, (dbCreateOrder db now oid phone prod q det).1.orders =
      db.orders ++ [(oid, row)] := by
  unfold dbCreateOrder
  split <;> dsimp only <;> split <;>
    first
      | exact Or.inl rfl
      | exact Or.inr ⟨_, rfl⟩

/-- Membership in the orders table after `create_order`. -/
theorem mem_dbCreateOrder_orders {db : DbState} {now : Int}
    {oid phone prod : Str} {q : Int} {det : List (String × DVal)}
    {e : Str × OrderRecord}
    (he : e ∈ (dbCreateOrder db now oid phone prod q det).1.orders) :
    e ∈ db.orders ∨ e.1 = oid := by
  rcases dbCreateOrder_orders_cases db now oid phone prod q det with
    h | ⟨row, h⟩
  · rw [h] at he
    exact Or.inl he
  · rw [h] at he
    rcases List.mem_append.mp he with he | he
    · exact Or.inl he
    · exact Or.inr (by rw [List.mem_singleton.mp he])

/-- Membership in the orders table after the single-shot creation path:
any new row carries the id generated from the drawn uuid. -/
theorem mem_createOrderFromMessage {message sender : Str}
    {st : AgentSt DbSt} {u : Str} {rest : List Str}
    (hu : st.uuids = u :: rest) {e : Str × OrderRecord}
    (he : e ∈ (createOrderFromMessage concreteDb message sender
      st).1.dbs.db.orders) :
    e ∈ st.dbs.db.orders ∨ e.1 = mkOrderId u := by
  unfold createOrderFromMessage at he
  simp only [popUuid, hu, concreteDb] at he
  by_cases hA : (dbGetCustomer st.dbs.db sender).isNone
  · simp only [hA, if_true] at he
    cases hq : pyIntDigits (dGet (extractOrderDetails message) "quantity"
        (str "1")) with
    | none =>
      rw [hq] at he
      exact Or.inl he
    | some q =>
      rw [hq] at he
      rcases mem_dbCreateOrder_orders he with h | h
      · exact Or.inl h
      · exact Or.inr h
  · simp only [hA, if_false, Bool.false_eq_true] at he
    cases hq : pyIntDigits (dGet (extractOrderDetails message) "quantity"
        (str "1")) with
    | none =>
      rw [hq] at he
      exact Or.inl he
    | some q =>
      rw [hq] at he
      rcases mem_dbCreateOrder_orders he with h | h
      · exact Or.inl h
      · exact Or.inr h

/-- C9: every order row added by the order-creation handler — through the
single-shot path or the guided wizard's committing step — carries an id of
the shape `ORD-[A-Z0-9]{8}`, built as `ORD-` plus the uppercased first 8
characters of the drawn uuid. -/
theorem c9_generated_order_ids_match_pattern :
    ∀ (message sender : Str) (parsed : ParsedMessage) (st : AgentSt DbSt)
      (u : Str) (rest : List Str),
      st.uuids = u :: rest → validUuidStr u = true →
      ∀ e ∈ (handleOrderCreation concreteDb message sender parsed
        st).1.dbs.db.orders,
        e ∈ st.dbs.db.orders ∨ orderIdPat e.1 = true := by
  intro message sender parsed st u rest hu hv e he
  unfold handleOrderCreation at he
  by_cases hp : (st.pending sender).isSome
  · rw [if_pos hp] at he
    cases hps : st.pending sender with
    | none => rw [hps] at hp; exact absurd hp (by simp)
    | some od =>
      obtain ⟨step, data, t⟩ := od
      unfold continueOrderCreation at he
      rw [hps] at he
      cases step with
      | product => exact Or.inl he
      | name => exact Or.inl he
      | phone => exact Or.inl he
      | address =>
        simp only [popUuid, hu] at he
        revert he
        split
        · intro he
          exact Or.inl he
        · split
          · rename_i heq
            exact absurd heq (by simp [concreteDb])
          · rename_i dbs1 success heq
            simp only [concreteDb] at heq
            injection heq with heq1 heq2
            intro he
            rw [← heq1] at he
            rcases mem_dbCreateOrder_orders he with h | h
            · exact Or.inl h
            · exact Or.inr (h ▸ orderIdPat_mkOrderId hv)
  · rw [if_neg hp] at he
    by_cases hc : isCompleteOrder message = true
    · rw [if_pos hc] at he
      rcases mem_createOrderFromMessage hu he with h | h
      · exact Or.inl h
      · exact Or.inr (h ▸ orderIdPat_mkOrderId hv)
    · rw [if_neg hc] at he
      exact Or.inl he

/-- Witness for C9: the id of the order committed by the wizard's address
step from the demo uuid matches the pattern. -/
theorem c9_generated_order_ids_witness :
    orderIdPat (str "ORD-AABBCCDD") = true := by
  have h := c9_generated_order_ids_match_pattern (str "1 Main St")
    (str "5") dummyParsed stC9 (str "aabbccdd-1111-2222-3333-444455556666")
    [] rfl (by decide)
  rcases h ((handleOrderCreation concreteDb (str "1 Main St") (str "5")
      dummyParsed stC9).1.dbs.db.orders.getD 0
      (str "x", ⟨str "x", [], [], 0, [], [], 0, 0⟩))
      (by decide) with hm | hpat
  · exact absurd hm (by decide)
  · exact hpat



theorem mem_mtch_eps {fuel : Nat} {prev : Option Char} {s : Str}
    {out : MOut} (h : out ∈ mtch fuel .eps prev s) : out = (prev, s, []) := by
  cases fuel with
  | zero => simp [mtch] at h
  | succ f => simpa [mtch] using h

theorem mem_mtch_wb {fuel : Nat} {prev : Option Char} {s : Str}
    {out : MOut} (h : out ∈ mtch fuel .wb prev s) : out = (prev, s, []) := by
  cases fuel with
  | zero => simp [mtch] at h
  | succ f =>
    simp only [mtch] at h
    split at h
    · simpa using h
    · simp at h

theorem mem_mtch_cls {fuel : Nat} {p : Char → Bool} {prev : Option Char}
    {s : Str} {out : MOut} (h : out ∈ mtch fuel (.cls p) prev s) :
    ∃ c rest, s = c :: rest ∧ p c = true ∧ out = (some c, rest, []) := by
  cases fuel with
  | zero => simp [mtch] at h
  | succ f =>
    cases s with
    | nil => simp [mtch] at h
    | cons c rest =>
      simp only [mtch] at h
      split at h
      · rename_i hp
        exact ⟨c, rest, rfl, hp, by simpa using h⟩
      · simp at h

theorem mem_mtch_seq {fuel : Nat} {a b : RE} {prev : Option Char} {s : Str}
    {out : MOut} (h : out ∈ mtch fuel (.seq a b) prev s) :
    ∃ f, fuel = f + 1 ∧ ∃ o1 ∈ mtch f a prev s, ∃ o2 ∈ mtch f b o1.1 o1.2.1,
      out = (o2.1, o2.2.1, o1.2.2 ++ o2.2.2) := by
  cases fuel with
  | zero => simp [mtch] at h
  | succ f =>
    refine ⟨f, rfl, ?_⟩
    simp only [mtch, List.mem_flatMap, List.mem_map] at h
    obtain ⟨⟨p1, r1, c1⟩, h1, ⟨p2, r2, c2⟩, h2, rfl⟩ := h
    exact ⟨(p1, r1, c1), h1, (p2, r2, c2), h2, rfl⟩

theorem mem_mtch_grp {fuel : Nat} {i : Nat} {a : RE} {prev : Option Char}
    {s : Str} {out : MOut} (h : out ∈ mtch fuel (.grp i a) prev s) :
    ∃ f, fuel = f + 1 ∧ ∃ oa ∈ mtch f a prev s,
      out = (oa.1, oa.2.1, oa.2.2 ++
        [(i, s.take (s.length - oa.2.1.length))]) := by
  cases fuel with
  | zero => simp [mtch] at h
  | succ f =>
    refine ⟨f, rfl, ?_⟩
    simp only [mtch, List.mem_map] at h
    obtain ⟨⟨p1, r1, c1⟩, h1, rfl⟩ := h
    exact ⟨(p1, r1, c1), h1, rfl⟩

theorem mem_mtch_alt {f : Nat} {a b : RE} {prev : Option Char} {s : Str}
    {out : MOut} (h : out ∈ mtch (f + 1) (.alt a b) prev s) :
    out ∈ mtch f a prev s ∨ out ∈ mtch f b prev s := by
  simpa [mtch] using h

theorem mtch_caps_nil_of_grpFree :
    ∀ (fuel : Nat) (r : RE) (prev : Option Char) (s : Str) (out : MOut),
      grpFree r = true → out ∈ mtch fuel r prev s → out.2.2 = [] := by
  intro fuel
  induction fuel with
  | zero => intro r prev s out _ h; simp [mtch] at h
  | succ f ih =>
    intro r prev s out hg h
    cases r with
    | eps => rw [mem_mtch_eps h]
    | wb => rw [mem_mtch_wb h]
    | cls p =>
      obtain ⟨c, rest, rfl, hp, rfl⟩ := mem_mtch_cls h
      rfl
    | seq a b =>
      simp only [grpFree, Bool.and_eq_true] at hg
      obtain ⟨g, hgf, o1, h1, o2, h2, rfl⟩ := mem_mtch_seq h
      injection hgf with hgf
      subst hgf
      rw [ih a prev s o1 hg.1 h1, ih b o1.1 o1.2.1 o2 hg.2 h2]
      rfl
    | alt a b =>
      simp only [grpFree, Bool.and_eq_true] at hg
      rcases mem_mtch_alt h with h1 | h1
      · exact ih a prev s out hg.1 h1
      · exact ih b prev s out hg.2 h1
    | grp i a => simp [grpFree] at hg
    | star a =>
      simp only [grpFree] at hg
      simp only [mtch, List.mem_append, List.mem_flatMap,
        List.mem_singleton] at h
      rcases h with ⟨⟨p1, r1, c1⟩, h1, h2⟩ | rfl
      · split at h2
        · simp only [List.mem_map] at h2
          obtain ⟨⟨p2, r2, c2⟩, h3, rfl⟩ := h2
          have e1 : c1 = [] := ih a prev s (p1, r1, c1) hg h1
          have e2 : c2 = [] := ih (.star a) p1 r1 (p2, r2, c2)
            (by simpa [grpFree] using hg) h3
          simp [e1, e2]
        · simp at h2
      · rfl

theorem mtch_star_cls_consumed :
    ∀ (fuel : Nat) (p : Char → Bool) (prev : Option Char) (s : Str)
      (out : MOut), out ∈ mtch fuel (.star (.cls p)) prev s →
      ∃ pre, s = pre ++ out.2.1 ∧ pre.all p = true := by
  intro fuel
  induction fuel with
  | zero => intro p prev s out h; simp [mtch] at h
  | succ f ih =>
    intro p prev s out h
    simp only [mtch, List.mem_append, List.mem_flatMap,
      List.mem_singleton] at h
    rcases h with ⟨⟨p1, r1, c1⟩, h1, h2⟩ | rfl
    · split at h2
      · simp only [List.mem_map] at h2
        obtain ⟨⟨p2, r2, c2⟩, h3, rfl⟩ := h2
        obtain ⟨c, rest, rfl, hp, he⟩ := mem_mtch_cls h1
        injection he with he1 he2
        injection he2 with he2 he3
        subst he2
        obtain ⟨pre2, hpre2, hall2⟩ := ih p p1 r1 (p2, r2, c2) h3
        refine ⟨c :: pre2, ?_, ?_⟩
        · simp only [List.cons_append]
          rw [← hpre2]
        · simp [hp, hall2]
      · simp at h2
    · exact ⟨[], rfl, rfl⟩

theorem mtch_plus_cls_consumed {fuel : Nat} {p : Char → Bool}
    {prev : Option Char} {s : Str} {out : MOut}
    (h : out ∈ mtch fuel (plus (.cls p)) prev s) :
    ∃ pre, s = pre ++ out.2.1 ∧ pre ≠ [] ∧ pre.all p = true ∧
      out.2.2 = [] := by
  obtain ⟨f, hf, o1, h1, o2, h2, rfl⟩ := mem_mtch_seq h
  obtain ⟨c, rest, rfl, hp, rfl⟩ := mem_mtch_cls h1
  obtain ⟨pre2, hpre2, hall2⟩ := mtch_star_cls_consumed f p _ _ o2 h2
  have hc2 : o2.2.2 = [] :=
    mtch_caps_nil_of_grpFree f _ _ _ o2 (by simp [grpFree]) h2
  refine ⟨c :: pre2, ?_, by simp, by simp [hp, hall2], by simp [hc2]⟩
  simp only [List.cons_append]
  rw [← hpre2]

theorem orderIdRE_caps {fuel : Nat} {prev : Option Char} {s : Str}
    {out : MOut} (h : out ∈ mtch fuel orderIdRE prev s) :
    ∃ g1 g2, out.2.2 = [(1, g1), (2, g2)] ∧ g2 ≠ [] ∧
      g2.all Char.isDigit = true := by
  have h0 : out ∈ mtch fuel (.seq .wb
      (.seq (.grp 1 (altL [lit "ord", lit "order"]))
        (.seq (.star dashSp)
          (.seq (.grp 2 (plus dCls)) (.seq .wb .eps))))) prev s := h
  obtain ⟨f1, rfl, o1, h1, o2, h2, rfl⟩ := mem_mtch_seq h0
  have e1 := mem_mtch_wb h1
  subst e1
  obtain ⟨f2, rfl, oA, hA, o3, h3, rfl⟩ := mem_mtch_seq h2
  obtain ⟨f3, rfl, oalt, halt, rfl⟩ := mem_mtch_grp hA
  have hcA : oalt.2.2 = [] :=
    mtch_caps_nil_of_grpFree f3 _ _ _ oalt (by rfl) halt
  obtain ⟨f4, hf4, oS, hS, o4, h4, rfl⟩ := mem_mtch_seq h3
  have hcS : oS.2.2 = [] :=
    mtch_caps_nil_of_grpFree f4 _ _ _ oS (by rfl) hS
  obtain ⟨f5, hf5, oG2, hG2, o5, h5, rfl⟩ := mem_mtch_seq h4
  obtain ⟨f6, hf6, oP, hP, rfl⟩ := mem_mtch_grp hG2
  have hP2 : oP ∈ mtch f6 (plus (.cls Char.isDigit)) oS.1 oS.2.1 := hP
  obtain ⟨pre, hpre, hne, hall, hcP⟩ := mtch_plus_cls_consumed hP2
  obtain ⟨f7, hf7, oW, hW, oE, hE, rfl⟩ := mem_mtch_seq h5
  have eW := mem_mtch_wb hW
  have eE := mem_mtch_eps hE
  subst eW
  subst eE
  have htake : oS.2.1.take (oS.2.1.length - oP.2.1.length) = pre := by
    rw [hpre]
    have hlen : (pre ++ oP.2.1).length - oP.2.1.length = pre.length := by
      simp
    rw [hlen, List.take_left]
  refine ⟨s.take (s.length - oalt.2.1.length), pre, ?_, hne, hall⟩
  simp [hcA, hcS, hcP, htake]

theorem findAllAux_succ (r : RE) (n : Nat) (prev : Option Char) (s : Str) :
    findAllAux r (n + 1) prev s =
      match (mtch (reFuel r s) r prev s).head? with
      | some (p1, r1, caps) =>
        if r1.length < s.length then
          ⟨s.take (s.length - r1.length), caps⟩ :: findAllAux r n p1 r1
        else
          match s with
          | [] => [⟨[], caps⟩]
          | c :: rest => ⟨[], caps⟩ :: findAllAux r n (some c) rest
      | none =>
        match s with
        | [] => []
        | c :: rest => findAllAux r n (some c) rest := rfl

theorem mem_findAllAux_exists_mtch (r : RE) :
    ∀ (scanFuel : Nat) (prev : Option Char) (s : Str) (fd : Found),
      fd ∈ findAllAux r scanFuel prev s →
      ∃ fuel prev2 s2 out, out ∈ mtch fuel r prev2 s2 ∧
        fd.caps = out.2.2 := by
  intro scanFuel
  induction scanFuel with
  | zero => intro prev s fd h; simp [findAllAux] at h
  | succ n ih =>
    intro prev s fd h
    rw [findAllAux_succ] at h
    cases hM : (mtch (reFuel r s) r prev s).head? with
    | none =>
      rw [hM] at h
      cases s with
      | nil => simp at h
      | cons c rest => exact ih (some c) rest fd h
    | some x =>
      obtain ⟨p1, r1, caps⟩ := x
      have hmem : ((p1, r1, caps) : MOut) ∈ mtch (reFuel r s) r prev s := by
        cases hL : mtch (reFuel r s) r prev s with
        | nil => rw [hL] at hM; simp at hM
        | cons y ys =>
          rw [hL] at hM
          simp only [List.head?] at hM
          injection hM with hM
          rw [← hM]
          exact List.mem_cons_self y ys
      rw [hM] at h
      dsimp only at h
      split at h
      · rcases List.mem_cons.mp h with rfl | h2
        · exact ⟨reFuel r s, prev, s, (p1, r1, caps), hmem, rfl⟩
        · exact ih p1 r1 fd h2
      · cases s with
        | nil =>
          simp only [List.mem_singleton] at h
          subst h
          exact ⟨reFuel r [], prev, [], (p1, r1, caps), hmem, rfl⟩
        | cons c rest =>
          rcases List.mem_cons.mp h with rfl | h2
          · exact ⟨reFuel r (c :: rest), prev, c :: rest,
              (p1, r1, caps), hmem, rfl⟩
          · exact ih (some c) rest fd h2

theorem mem_findAll_orderId_capGet {s : Str} {fd : Found}
    (h : fd ∈ findAll orderIdRE s) :
    capGet fd 2 ≠ [] ∧ (capGet fd 2).all Char.isDigit = true := by
  obtain ⟨fuel, p2, s2, out, hout, hcaps⟩ :=
    mem_findAllAux_exists_mtch orderIdRE (s.length + 1) none s fd h
  obtain ⟨g1, g2, hc, hne, hall⟩ := orderIdRE_caps hout
  have : capGet fd 2 = g2 := by
    simp [capGet, hcaps, hc, List.lookup]
  rw [this]
  exact ⟨hne, hall⟩

theorem lookup_append_sngl (k k2 : String) (v : List Str)
    (l : List (String × List Str)) (h : (k == k2) = false) :
    ((l ++ [(k2, v)]).lookup k) = l.lookup k := by
  induction l with
  | nil => simp [List.lookup, h]
  | cons x xs ih =>
    obtain ⟨a, b⟩ := x
    simp only [List.cons_append, List.lookup]
    split
    · rfl
    · exact ih

theorem entityStep_lookup_other (m : Str) (acc : List (String × List Str))
    (p : String × RE) (h : ("order_id" == p.1) = false) :
    (entityStep m acc p).lookup "order_id" = acc.lookup "order_id" := by
  rw [entityStep]
  split
  · rfl
  · split
    · exact lookup_append_sngl _ _ _ _ h
    · exact lookup_append_sngl _ _ _ _ h

/-- C8: entity extraction for the `order_id` entity type keeps only the
digit group of each regex match (group 2 of `\b(ord|order)[-\s]*(\d+)\b`),
discarding the `ord`/`order` prefix; the values appear in first-to-last
occurrence order of the matches, and every value is a nonempty digit
string. -/
theorem c8_order_id_keeps_digit_group (message : Str) (vs : List Str)
    (h : (extractEntities message).lookup "order_id" = some vs) :
    vs = (findAll orderIdRE message).map (fun fd => capGet fd 2) ∧
    ∀ v ∈ vs, v ≠ [] ∧ v.all Char.isDigit = true := by
  have hred : (extractEntities message).lookup "order_id"
      = (entityStep message [] ("order_id", orderIdRE)).lookup
          "order_id" := by
    simp only [extractEntities, entityPatterns, List.foldl_cons,
      List.foldl_nil]
    rw [entityStep_lookup_other message _ ("product", productRE) (by decide),
      entityStep_lookup_other message _ ("quantity", quantityRE) (by decide),
      entityStep_lookup_other message _ ("email", emailRE) (by decide),
      entityStep_lookup_other message _ ("phone_number", phoneRE)
        (by decide)]
  rw [hred] at h
  rw [entityStep] at h
  split at h
  · simp [List.lookup] at h
  · rw [if_pos rfl] at h
    simp only [List.nil_append, List.lookup, beq_self_eq_true, if_true] at h
    have hv : vs = (pyFindall orderIdRE message).map fun m =>
        match m with
        | .tup ws => ws.getD 1 []
        | .s v => v := by
      injection h with h
      exact h.symm
    have hpf : (pyFindall orderIdRE message).map (fun m =>
        match m with
        | .tup ws => ws.getD 1 []
        | .s v => v) =
        (findAll orderIdRE message).map (fun fd => capGet fd 2) := by
      have : pyFindall orderIdRE message =
          (findAll orderIdRE message).map fun fd =>
            .tup [capGet fd 1, capGet fd 2] := rfl
      rw [this, List.map_map]
      rfl
    constructor
    · rw [hv, hpf]
    · intro v hvmem
      rw [hv, hpf] at hvmem
      obtain ⟨fd, hfd, rfl⟩ := List.mem_map.mp hvmem
      exact mem_findAll_orderId_capGet hfd

/-- Witness for C8 at the spec example: extracting from `order ORD-1234`
yields `order_id` mapped to `["1234"]`, and the theorem applies to it. -/
theorem c8_order_id_keeps_digit_group_witness :
    (extractEntities (str "order ORD-1234")).lookup "order_id" =
      some [str "1234"] ∧
    ∀ v ∈ ([str "1234"] : List Str), v ≠ [] ∧ v.all Char.isDigit = true :=
  ⟨by decide, (c8_order_id_keeps_digit_group (str "order ORD-1234") [str "1234"] (by decide)).2⟩

end WA

